import Mathlib

/-!
Verification development for the smartlink-cli extension installer.

The TypeScript source is shallowly embedded:

* JSON preference blobs become the inductive `Json` (objects as ordered
  association lists, mirroring JS object key order; numbers as `Int` since
  every number written by this code is an integer timestamp or flag).
* The byte buffer of a downloaded CRX archive becomes `List Nat`.
* Filesystem state of one browser profile becomes the `Profile` record;
  outcomes of the external `unzip`/network calls are passed in as explicit
  parameters (`unzipOk`, `download`).
* A thrown JS exception becomes `Except JsError`; JS strict-mode property
  assignment on `undefined`/`null`/primitives is a `typeError`.
* `Date.now()` is passed in as the parameter `nowMs` (milliseconds); the
  installers also use `Math.floor(Date.now() / 1000)`, embedded as `nowMs / 1000`
  (`Int` division truncates toward negative infinity, which agrees with
  `Math.floor` on the relevant nonnegative timestamps).
-/

/-- A parsed JSON value.  Objects keep insertion order, as JS objects do. -/
inductive Json where
  | null
  | bool (b : Bool)
  | num (n : Int)
  | str (s : String)
  | arr (elems : List Json)
  | obj (fields : List (String × Json))

/-- First binding of `key` in an object field list (JS property lookup on
    objects without duplicate keys). -/
def getField : List (String × Json) → String → Option Json
  | [], _ => none
  | (k, v) :: rest, key => if k = key then some v else getField rest key

/-- JS property assignment `o[key] = val`: overwrite in place if the key is
    present, otherwise append (new keys go last in insertion order). -/
def setField : List (String × Json) → String → Json → List (String × Json)
  | [], key, val => [(key, val)]
  | (k, v) :: rest, key, val =>
      if k = key then (k, val) :: rest else (k, v) :: setField rest key val

/-- Property read `j.key`: `none` models JS `undefined`. -/
def Json.get : Json → String → Option Json
  | .obj fields, key => getField fields key
  | _, _ => none

/-- Chained property reads `j.k1.k2...`; any miss or non-object gives `none`. -/
def jsonGetPath : Json → List String → Option Json
  | j, [] => some j
  | j, key :: rest =>
      match j.get key with
      | some v => jsonGetPath v rest
      | none => none

/-- JS truthiness of a value: `null`, `false`, `0`, `""` are falsy. -/
def jsTruthyVal : Json → Bool
  | .null => false
  | .bool b => b
  | .num n => n != 0
  | .str s => s ≠ ""
  | .arr _ => true
  | .obj _ => true

/-- JS truthiness of a property read (`undefined` is falsy). -/
def jsTruthy : Option Json → Bool
  | none => false
  | some v => jsTruthyVal v

/-- JS `array.includes(extensionId)` where `extensionId` is a string:
    strict equality holds only against string elements. -/
def jsIncludesStr (elems : List Json) (s : String) : Bool :=
  elems.any fun j =>
    match j with
    | .str t => t = s
    | _ => false

/-! ## Archive Extractor: the ZIP-signature scan

`extractManifestFromCrx` (extensions utility file, the loop at its top) and the
inlined copy of the same loop inside `Opera.installExtension` /
`Vivaldi.installExtension` scan for `PK\x03\x04`:

```
let zipStartOffset = 0;
for (let i = 0; i < crxData.length - 4; i++) {
  if (crxData[i] === 0x50 && crxData[i+1] === 0x4b &&
      crxData[i+2] === 0x03 && crxData[i+3] === 0x04) { zipStartOffset = i; break; }
}
```

The manifest path then checks `if (zipStartOffset === 0) throw ...`; the
install path inside the two installers performs no check at all.
-/

/-- The 4-byte ZIP local-file-header signature test at index `i`. -/
def sigAt (data : List Nat) (i : Nat) : Bool :=
  data[i]? == some 0x50 && data[i+1]? == some 0x4b &&
  data[i+2]? == some 0x03 && data[i+3]? == some 0x04

/-- The source's scan loop, with explicit fuel (the loop runs at most
    `data.length` iterations).  Returns 0 when the loop exits without a hit,
    exactly as `zipStartOffset` stays 0 in the source. -/
def scanLoop (data : List Nat) : Nat → Nat → Nat
  | 0, _ => 0
  | fuel + 1, i =>
      if i + 4 < data.length then
        if sigAt data i then i else scanLoop data fuel (i + 1)
      else 0

/-- `zipStartOffset` as computed by the scan loop started at `i = 0`. -/
def scanOffset (data : List Nat) : Nat := scanLoop data data.length 0

/-- Error message of the manifest path (ASCII-transliterated). -/
def crxInvalidMsg : String := "Format CRX invalide: signature ZIP non trouvee"

/-- The manifest path (`extractManifestFromCrx`): computes the offset and
    throws when it is 0.  (`extractManifestFromCrx` itself wraps this in a
    `try`/`catch` that substitutes a hardcoded fallback manifest; the throw
    modeled here is what that `catch` receives.) -/
def extractManifestZipStart (crxData : List Nat) : Except String Nat :=
  let zipStartOffset := scanOffset crxData
  if zipStartOffset = 0 then .error crxInvalidMsg
  else .ok zipStartOffset

/-- The full-install path inside `Opera.installExtension` and
    `Vivaldi.installExtension`: same loop, no check whatsoever — the slice
    `crxData.slice(zipStartOffset)` is taken unconditionally. -/
def installZipStart (crxData : List Nat) : Nat := scanOffset crxData

/-- Specification-side notion for claim C1: the byte offset of the first
    occurrence of the signature in the buffer (`none` when there is none).
    Searches every index of the buffer (an occurrence needs `i + 4 ≤ length`,
    so fuel `data.length` starting at 0 is exhaustive). -/
def firstSigAux (data : List Nat) : Nat → Nat → Option Nat
  | 0, _ => none
  | fuel + 1, i => if sigAt data i then some i else firstSigAux data fuel (i + 1)

/-- First offset of the ZIP signature in the buffer, if any. -/
def firstSigOffset (data : List Nat) : Option Nat :=
  firstSigAux data data.length 0

/-! ## Version-string formatting

`const versionFormatted = manifest.version.replace(/\./g, "_") + "_0";`
(identical in `Opera.installExtension` and `Vivaldi.installExtension`).
-/

/-- `version.replace(/\./g, "_") + "_0"`: every dot becomes an underscore and
    the fixed `"_0"` suffix is appended. -/
def versionFormatted (version : String) : String :=
  String.mk (version.data.map (fun c => if c = '.' then '_' else c) ++ ['_', '0'])

/-- Specification-side inverse for claim C8: drop the two suffix characters
    `_0` and turn underscores back into dots. -/
def directoryToVersion (dir : String) : String :=
  String.mk (dir.data.dropLast.dropLast.map (fun c => if c = '_' then '.' else c))

/-! ## Installer data model

`InstallerOptions` (type declaration file): only the fields that the modeled
per-profile installation steps consult are carried; `profiles`, `installDir`,
`downloadDir` and `logLevel` feed profile discovery, download paths and
logging, which are parameters of the model (`Profile` lists are passed in,
download and unzip outcomes are explicit parameters, logging is ignored).
-/

/-- The optional `config` sub-record `{ smartLinkUrl?, secret? }`. -/
structure Config where
  smartLinkUrl : Option String
  secret : Option String

/-- The installer options consulted by the modeled steps. -/
structure InstallerOptions where
  forceReinstall : Bool
  pinExtension : Bool
  config : Option Config

/-- JS truthiness of an optional string option (`undefined` and `""` falsy). -/
def strTruthy : Option String → Bool
  | some s => s ≠ ""
  | none => false

/-- The relaunch guard of the Chromium-family installers:
    `this.options.config?.smartLinkUrl && this.options.config?.secret`. -/
def configBothTruthy : Option Config → Bool
  | some c => strTruthy c.smartLinkUrl && strTruthy c.secret
  | none => false

/-- State of a profile's `Preferences` file on disk. -/
inductive PrefFile where
  | absent
  | malformed
  | wellFormed (j : Json)

/-- On-disk state of one browser profile, restricted to what the installers
    touch: the `Preferences` file, and the version-coded extension directory
    `Extensions/<extensionId>/<versionFormatted>` together with the names of
    the files inside it. -/
structure Profile where
  prefFile : PrefFile
  extensionsDirExists : Bool
  versionDirExists : Bool
  versionDirFiles : List String

/-- A thrown JS exception, by kind. -/
inductive JsError where
  | typeError (msg : String)
  | parseError (msg : String)
  | downloadError (msg : String)

/-- Message carried by a `JsError`. -/
def jsErrorMessage : JsError → String
  | .typeError msg => msg
  | .parseError msg => msg
  | .downloadError msg => msg

/-- Error messages used by the embedding (the JS runtime's own wording is
    abbreviated to fixed ASCII strings). -/
def preferencesNotObjectMsg : String := "TypeError: cannot set property on non-object preferences"
def extensionsNotObjectMsg : String := "TypeError: cannot set property on non-object extensions"
def settingsNotObjectMsg : String := "TypeError: cannot set property on non-object settings"
def externalExtensionsNotObjectMsg : String := "TypeError: cannot set property on non-object external_extensions"
def knownEnabledNotArrayMsg : String := "TypeError: known_enabled has no includes or push"
def pinnedExtensionsNotArrayMsg : String := "TypeError: pinned_extensions has no includes or push"
def opsettingsUndefinedMsg : String := "TypeError: cannot set properties of undefined (extensions.opsettings)"
def prefsParseMsg : String := "SyntaxError: unexpected token in JSON"
def versionNotStringMsg : String := "TypeError: manifest.version.replace is not a function"

/-- Outcome of one iteration of the per-profile loop: the updated profile
    state and whether the browser was relaunched with the configuration URL
    for this profile. -/
structure StepResult where
  profile : Profile
  relaunched : Bool

/-! ## The synthesized preference records

The object literals assigned to `preferences.extensions.settings[extensionId]`
(Vivaldi) / `preferences.extensions.opsettings[extensionId]` (Opera); the two
installers contain character-identical literals.  `nowMs` is `Date.now()`.
-/

/-- A JSON array of string literals. -/
def strArr (xs : List String) : Json := .arr (xs.map .str)

/-- JS `a || b` where `a` is a property read: `b` when `a` is falsy. -/
def jsOr (a : Option Json) (b : Json) : Json :=
  match a with
  | some v => if jsTruthyVal v then v else b
  | none => b

/-- The synthesized per-extension settings record (identical literal in
    `Opera.installExtension` and `Vivaldi.installExtension`). -/
def extensionSettingsEntry (manifest : Json) (extensionId versionFormattedStr : String)
    (nowMs : Int) : Json :=
  .obj [
    ("account_extension_type", .num 0),
    ("active_permissions", .obj [
      ("api", jsOr (manifest.get "permissions")
        (strArr ["activeTab", "contextMenus", "storage", "scripting"])),
      ("explicit_host", jsOr (manifest.get "host_permissions")
        (strArr ["file:///*", "http://localhost:3000/*", "https://*/*"])),
      ("manifest_permissions", .arr []),
      ("scriptable_host", .arr [])]),
    ("commands", .obj []),
    ("content_settings", .arr []),
    ("creation_flags", .num 9),
    ("first_install_time", .str (toString nowMs)),
    ("from_webstore", .bool true),
    ("granted_permissions", .obj [
      ("api", jsOr (manifest.get "permissions")
        (strArr ["activeTab", "contextMenus", "storage", "tabs", "scripting"])),
      ("explicit_host", jsOr (manifest.get "host_permissions")
        (strArr ["*://*/*", "file:///*", "http://localhost:3000/*", "https://*/*"])),
      ("manifest_permissions", .arr []),
      ("scriptable_host", .arr [])]),
    ("incognito_content_settings", .arr []),
    ("incognito_preferences", .obj []),
    ("installation_time", .num (nowMs / 1000)),
    ("last_update_time", .str (toString nowMs)),
    ("location", .num 1),
    ("path", .str (extensionId ++ "/" ++ versionFormattedStr)),
    ("preferences", .obj []),
    ("regular_only_preferences", .obj []),
    ("serviceworkerevents", strArr ["contextMenus.onClicked", "runtime.onInstalled",
      "tabs.onHighlighted", "tabs.onRemoved", "tabs.onUpdated"]),
    ("state", .num 1),
    ("was_installed_by_default", .bool false),
    ("was_installed_by_oem", .bool false),
    ("withholding_permissions", .bool false),
    ("manifest", manifest)]

/-- The record assigned to `preferences.extensions.external_extensions[extensionId]`
    (identical in both installers); `nowS` is `Math.floor(Date.now() / 1000)`. -/
def externalExtensionsEntry (nowS : Int) : Json :=
  .obj [
    ("external_update_url", .str "https://clients2.google.com/service/update2/crx"),
    ("install_time", .num nowS),
    ("location", .num 1)]

/-! ## Preference patching, stage by stage

Each stage models one guarded mutation block of the `PATCH_PREFS` section.
A stage takes the field list of `preferences.extensions` and returns the
updated field list, or the JS exception the block would throw.
-/

/-- Vivaldi:
```
if (!preferences.extensions.settings) preferences.extensions.settings = {};
preferences.extensions.settings[extensionId] = { ... };
``` -/
def patchSettingsStage (extFields : List (String × Json)) (extensionId : String)
    (entry : Json) : Except JsError (List (String × Json)) :=
  let extFields1 := if jsTruthy (getField extFields "settings") then extFields
                    else setField extFields "settings" (.obj [])
  match getField extFields1 "settings" with
  | some (.obj settingsFields) =>
      .ok (setField extFields1 "settings" (.obj (setField settingsFields extensionId entry)))
  | _ => .error (.typeError settingsNotObjectMsg)

/-- Opera:
```
if (!preferences.extensions.opsettings) preferences.extensions.settings = {};
preferences.extensions.opsettings[extensionId] = { ... };
```
Note the guard tests `opsettings` but initializes `settings`; when
`opsettings` is absent the subsequent indexed assignment is a property write
on `undefined` and throws. -/
def operaPatchOpsettingsStage (extFields : List (String × Json)) (extensionId : String)
    (entry : Json) : Except JsError (List (String × Json)) :=
  let extFields1 := if jsTruthy (getField extFields "opsettings") then extFields
                    else setField extFields "settings" (.obj [])
  match getField extFields1 "opsettings" with
  | some (.obj opsFields) =>
      .ok (setField extFields1 "opsettings" (.obj (setField opsFields extensionId entry)))
  | _ => .error (.typeError opsettingsUndefinedMsg)

/-- Both installers:
```
if (!preferences.extensions.external_extensions) preferences.extensions.external_extensions = {};
preferences.extensions.external_extensions[extensionId] = { ... };
``` -/
def patchExternalExtensionsStage (extFields : List (String × Json)) (extensionId : String)
    (nowS : Int) : Except JsError (List (String × Json)) :=
  let extFields1 := if jsTruthy (getField extFields "external_extensions") then extFields
                    else setField extFields "external_extensions" (.obj [])
  match getField extFields1 "external_extensions" with
  | some (.obj eeFields) =>
      .ok (setField extFields1 "external_extensions"
        (.obj (setField eeFields extensionId (externalExtensionsEntry nowS))))
  | _ => .error (.typeError externalExtensionsNotObjectMsg)

/-- Both installers:
```
if (!preferences.extensions.known_enabled) preferences.extensions.known_enabled = [];
if (!preferences.extensions.known_enabled.includes(extensionId))
  preferences.extensions.known_enabled.push(extensionId);
``` -/
def patchKnownEnabledStage (extFields : List (String × Json)) (extensionId : String) :
    Except JsError (List (String × Json)) :=
  let extFields1 := if jsTruthy (getField extFields "known_enabled") then extFields
                    else setField extFields "known_enabled" (.arr [])
  match getField extFields1 "known_enabled" with
  | some (.arr elems) =>
      let elems1 := if jsIncludesStr elems extensionId then elems
                    else elems ++ [.str extensionId]
      .ok (setField extFields1 "known_enabled" (.arr elems1))
  | _ => .error (.typeError knownEnabledNotArrayMsg)

/-- Both installers, guarded by `this.options.pinExtension`:
```
if (!preferences.extensions.pinned_extensions) preferences.extensions.pinned_extensions = [];
if (!preferences.extensions.pinned_extensions.includes(extensionId))
  preferences.extensions.pinned_extensions.push(extensionId);
``` -/
def patchPinnedStage (extFields : List (String × Json)) (extensionId : String) :
    Except JsError (List (String × Json)) :=
  let extFields1 := if jsTruthy (getField extFields "pinned_extensions") then extFields
                    else setField extFields "pinned_extensions" (.arr [])
  match getField extFields1 "pinned_extensions" with
  | some (.arr elems) =>
      let elems1 := if jsIncludesStr elems extensionId then elems
                    else elems ++ [.str extensionId]
      .ok (setField extFields1 "pinned_extensions" (.arr elems1))
  | _ => .error (.typeError pinnedExtensionsNotArrayMsg)

/-- The four mutation blocks of Vivaldi's `PATCH_PREFS`, in source order, on
    the field list of `preferences.extensions`. -/
def vivaldiExtPatch (extFields : List (String × Json)) (extensionId : String)
    (manifest : Json) (versionFormattedStr : String) (nowMs nowS : Int)
    (pinExtension : Bool) : Except JsError (List (String × Json)) :=
  match patchSettingsStage extFields extensionId
      (extensionSettingsEntry manifest extensionId versionFormattedStr nowMs) with
  | .error e => .error e
  | .ok extFields2 =>
    match patchExternalExtensionsStage extFields2 extensionId nowS with
    | .error e => .error e
    | .ok extFields3 =>
      match patchKnownEnabledStage extFields3 extensionId with
      | .error e => .error e
      | .ok extFields4 =>
        if pinExtension then patchPinnedStage extFields4 extensionId
        else .ok extFields4

/-- The whole `PATCH_PREFS` block of `Vivaldi.installExtension`, from
    `if (!preferences.extensions) preferences.extensions = {};` to the pinned
    extensions block, returning the object written back to `Preferences`. -/
def vivaldiPatchPrefs (preferences : Json) (extensionId : String) (manifest : Json)
    (versionFormattedStr : String) (nowMs nowS : Int) (pinExtension : Bool) :
    Except JsError Json :=
  match preferences with
  | .obj prefFields =>
    let prefFields1 := if jsTruthy (getField prefFields "extensions") then prefFields
                       else setField prefFields "extensions" (.obj [])
    match getField prefFields1 "extensions" with
    | some (.obj extFields) =>
      match vivaldiExtPatch extFields extensionId manifest versionFormattedStr
          nowMs nowS pinExtension with
      | .error e => .error e
      | .ok extFields5 => .ok (.obj (setField prefFields1 "extensions" (.obj extFields5)))
    | _ => .error (.typeError extensionsNotObjectMsg)
  | _ => .error (.typeError preferencesNotObjectMsg)

/-- The four mutation blocks of Opera's `PATCH_PREFS`, in source order (the
    first writes the record under `opsettings` with the mismatched guard). -/
def operaExtPatch (extFields : List (String × Json)) (extensionId : String)
    (manifest : Json) (versionFormattedStr : String) (nowMs nowS : Int)
    (pinExtension : Bool) : Except JsError (List (String × Json)) :=
  match operaPatchOpsettingsStage extFields extensionId
      (extensionSettingsEntry manifest extensionId versionFormattedStr nowMs) with
  | .error e => .error e
  | .ok extFields2 =>
    match patchExternalExtensionsStage extFields2 extensionId nowS with
    | .error e => .error e
    | .ok extFields3 =>
      match patchKnownEnabledStage extFields3 extensionId with
      | .error e => .error e
      | .ok extFields4 =>
        if pinExtension then patchPinnedStage extFields4 extensionId
        else .ok extFields4

/-- The whole `PATCH_PREFS` block of `Opera.installExtension`; identical to
    the Vivaldi one except that the per-extension record is written under
    `opsettings` (with the mismatched guard). -/
def operaPatchPrefs (preferences : Json) (extensionId : String) (manifest : Json)
    (versionFormattedStr : String) (nowMs nowS : Int) (pinExtension : Bool) :
    Except JsError Json :=
  match preferences with
  | .obj prefFields =>
    let prefFields1 := if jsTruthy (getField prefFields "extensions") then prefFields
                       else setField prefFields "extensions" (.obj [])
    match getField prefFields1 "extensions" with
    | some (.obj extFields) =>
      match operaExtPatch extFields extensionId manifest versionFormattedStr
          nowMs nowS pinExtension with
      | .error e => .error e
      | .ok extFields5 => .ok (.obj (setField prefFields1 "extensions" (.obj extFields5)))
    | _ => .error (.typeError extensionsNotObjectMsg)
  | _ => .error (.typeError preferencesNotObjectMsg)

/-- Final content of the `Preferences` file after the read-modify-write: the
    patched object when the patch succeeds, the unchanged original when the
    patch throws (the throw happens before `fs.writeFileSync`). -/
def vivaldiPatchedFile (preferences : Json) (extensionId : String) (manifest : Json)
    (versionFormattedStr : String) (nowMs nowS : Int) (pinExtension : Bool) : Json :=
  match vivaldiPatchPrefs preferences extensionId manifest versionFormattedStr
      nowMs nowS pinExtension with
  | .ok p => p
  | .error _ => preferences

/-- Opera analogue of `vivaldiPatchedFile`. -/
def operaPatchedFile (preferences : Json) (extensionId : String) (manifest : Json)
    (versionFormattedStr : String) (nowMs nowS : Int) (pinExtension : Bool) : Json :=
  match operaPatchPrefs preferences extensionId manifest versionFormattedStr
      nowMs nowS pinExtension with
  | .ok p => p
  | .error _ => preferences

/-! ## Per-profile installation steps

One iteration of the `for (const profile of profiles)` loop of each installer
(non-Windows path).  External effects are explicit parameters:

* `archiveFiles`: the file names inside the ZIP payload of the downloaded
  archive (what `unzip`/`Expand-Archive` would produce);
* `unzipOk`: whether the external unzip command succeeds (its failure is the
  `catch` that falls back to writing just `manifest.json`);
* `nowMs`: `Date.now()` during the iteration, `nowS` the corresponding
  `Math.floor(Date.now() / 1000)`.
-/

/-- `manifest.version.replace(/\./g, "_") + "_0"`: `.replace` exists only on
    strings; on a missing or non-string `version` the call throws. -/
def manifestVersionFormatted (manifest : Json) : Except JsError String :=
  match manifest.get "version" with
  | some (.str v) => .ok (versionFormatted v)
  | _ => .error (.typeError versionNotStringMsg)

/-- One iteration of the Opera per-profile loop.  Order as in the source:
    create `Extensions/<extensionId>` (mkdir), compute the version directory
    name, handle forceReinstall / already-installed skip, create the version
    directory, extract the archive (falling back to writing the synthesized
    `manifest.json` when unzip fails), and only then — if a `Preferences`
    file exists — parse it, patch it and write it back, relaunching with the
    configuration URL when both `smartLinkUrl` and `secret` are truthy. -/
def operaProfileStep (opts : InstallerOptions) (extensionId : String) (manifest : Json)
    (archiveFiles : List String) (unzipOk : Bool) (nowMs nowS : Int) (p : Profile) :
    Except JsError StepResult :=
  let p := { p with extensionsDirExists := true }
  match manifestVersionFormatted manifest with
  | .error e => .error e
  | .ok versionFormattedStr =>
    if p.versionDirExists && opts.forceReinstall then
      let p := { p with
                   versionDirExists := false
                   versionDirFiles := [] }
      operaProfileInstall opts extensionId manifest versionFormattedStr archiveFiles
        unzipOk nowMs nowS p
    else if p.versionDirExists && !opts.forceReinstall then
      .ok ⟨p, false⟩
    else
      operaProfileInstall opts extensionId manifest versionFormattedStr archiveFiles
        unzipOk nowMs nowS p
where
  /-- The tail of the iteration after the skip check: mkdir of the version
      directory, extraction, preference patching. -/
  operaProfileInstall (opts : InstallerOptions) (extensionId : String) (manifest : Json)
      (versionFormattedStr : String) (archiveFiles : List String) (unzipOk : Bool)
      (nowMs nowS : Int) (p : Profile) : Except JsError StepResult :=
    let p := { p with
                 versionDirExists := true
                 versionDirFiles := if unzipOk then archiveFiles else ["manifest.json"] }
    match p.prefFile with
    | .absent => .ok ⟨p, false⟩
    | .malformed => .error (.parseError prefsParseMsg)
    | .wellFormed preferences =>
      match operaPatchPrefs preferences extensionId manifest versionFormattedStr
          nowMs nowS opts.pinExtension with
      | .error e => .error e
      | .ok preferences1 =>
        .ok ⟨{ p with prefFile := .wellFormed preferences1 },
             configBothTruthy opts.config⟩

/-- One iteration of the Vivaldi per-profile loop.  The whole body is guarded
    by `if (fs.existsSync(preferenceFile))`: a profile without a `Preferences`
    file is left completely untouched.  Inside the guard the file is read and
    parsed first, then the directories are created, the skip check runs, the
    archive is extracted and the preferences are patched and written back. -/
def vivaldiProfileStep (opts : InstallerOptions) (extensionId : String) (manifest : Json)
    (archiveFiles : List String) (unzipOk : Bool) (nowMs nowS : Int) (p : Profile) :
    Except JsError StepResult :=
  match p.prefFile with
  | .absent => .ok ⟨p, false⟩
  | .malformed => .error (.parseError prefsParseMsg)
  | .wellFormed preferences =>
    let p := { p with extensionsDirExists := true }
    match manifestVersionFormatted manifest with
    | .error e => .error e
    | .ok versionFormattedStr =>
      if p.versionDirExists && opts.forceReinstall then
        let p := { p with
                     versionDirExists := false
                     versionDirFiles := [] }
        vivaldiProfileInstall opts extensionId manifest versionFormattedStr archiveFiles
          unzipOk nowMs nowS preferences p
      else if p.versionDirExists && !opts.forceReinstall then
        .ok ⟨p, false⟩
      else
        vivaldiProfileInstall opts extensionId manifest versionFormattedStr archiveFiles
          unzipOk nowMs nowS preferences p
where
  /-- The tail of the iteration after the skip check. -/
  vivaldiProfileInstall (opts : InstallerOptions) (extensionId : String) (manifest : Json)
      (versionFormattedStr : String) (archiveFiles : List String) (unzipOk : Bool)
      (nowMs nowS : Int) (preferences : Json) (p : Profile) : Except JsError StepResult :=
    let p := { p with
                 versionDirExists := true
                 versionDirFiles := if unzipOk then archiveFiles else ["manifest.json"] }
    match vivaldiPatchPrefs preferences extensionId manifest versionFormattedStr
        nowMs nowS opts.pinExtension with
    | .error e => .error e
    | .ok preferences1 =>
      .ok ⟨{ p with prefFile := .wellFormed preferences1 },
           configBothTruthy opts.config⟩

/-! ## The whole installer run (non-Windows path)

`installExtension`: close browser, resolve profiles, download, extract the
manifest, loop over the profiles, then remove the download directory
(`CLEANUP_TEMP`).  Any exception thrown inside the loop propagates out of the
surrounding `try` (which only logs and rethrows), so the cleanup line is never
reached on such an exception. -/

/-- Outcome of a completed (non-throwing) installer run. -/
structure InstallRunOut where
  profiles : List Profile
  relaunches : List Bool
  cleanupDone : Bool

/-- Sequential per-profile loop of `Opera.installExtension`; the first thrown
    exception aborts the remaining profiles. -/
def operaProfilesLoop (opts : InstallerOptions) (extensionId : String) (manifest : Json)
    (archiveFiles : List String) (unzipOk : Bool) (nowMs nowS : Int) :
    List Profile → Except JsError (List Profile × List Bool)
  | [] => .ok ([], [])
  | p :: rest =>
    match operaProfileStep opts extensionId manifest archiveFiles unzipOk nowMs nowS p with
    | .error e => .error e
    | .ok res =>
      match operaProfilesLoop opts extensionId manifest archiveFiles unzipOk nowMs nowS rest with
      | .error e => .error e
      | .ok (ps, bs) => .ok (res.profile :: ps, res.relaunched :: bs)

/-- Loop plus the cleanup step (`fs.rmSync(downloadDir)`), which is reached
    only when no profile threw. -/
def operaInstallRun (opts : InstallerOptions) (extensionId : String) (manifest : Json)
    (archiveFiles : List String) (unzipOk : Bool) (nowMs nowS : Int)
    (profiles : List Profile) : Except JsError InstallRunOut :=
  match operaProfilesLoop opts extensionId manifest archiveFiles unzipOk nowMs nowS profiles with
  | .error e => .error e
  | .ok (ps, bs) => .ok ⟨ps, bs, true⟩

/-- Sequential per-profile loop of `Vivaldi.installExtension`. -/
def vivaldiProfilesLoop (opts : InstallerOptions) (extensionId : String) (manifest : Json)
    (archiveFiles : List String) (unzipOk : Bool) (nowMs nowS : Int) :
    List Profile → Except JsError (List Profile × List Bool)
  | [] => .ok ([], [])
  | p :: rest =>
    match vivaldiProfileStep opts extensionId manifest archiveFiles unzipOk nowMs nowS p with
    | .error e => .error e
    | .ok res =>
      match vivaldiProfilesLoop opts extensionId manifest archiveFiles unzipOk nowMs nowS rest with
      | .error e => .error e
      | .ok (ps, bs) => .ok (res.profile :: ps, res.relaunched :: bs)

/-- Vivaldi loop plus cleanup. -/
def vivaldiInstallRun (opts : InstallerOptions) (extensionId : String) (manifest : Json)
    (archiveFiles : List String) (unzipOk : Bool) (nowMs nowS : Int)
    (profiles : List Profile) : Except JsError InstallRunOut :=
  match vivaldiProfilesLoop opts extensionId manifest archiveFiles unzipOk nowMs nowS profiles with
  | .error e => .error e
  | .ok (ps, bs) => .ok ⟨ps, bs, true⟩

/-- `Opera.installExtension` from the download stage on: a rejected
    `downloadExtension` promise is caught, logged and rethrown wrapped in
    a fresh `Error`, aborting the whole run before any profile is touched. -/
def operaInstallExtension (opts : InstallerOptions) (extensionId : String)
    (download : Except String String) (manifest : Json) (archiveFiles : List String)
    (unzipOk : Bool) (nowMs nowS : Int) (profiles : List Profile) :
    Except JsError InstallRunOut :=
  match download with
  | .error e => .error (.downloadError ("Echec du telechargement de l extension: " ++ e))
  | .ok _crxFilePath =>
      operaInstallRun opts extensionId manifest archiveFiles unzipOk nowMs nowS profiles

/-- `Vivaldi.installExtension` from the download stage on (same structure). -/
def vivaldiInstallExtension (opts : InstallerOptions) (extensionId : String)
    (download : Except String String) (manifest : Json) (archiveFiles : List String)
    (unzipOk : Bool) (nowMs nowS : Int) (profiles : List Profile) :
    Except JsError InstallRunOut :=
  match download with
  | .error e => .error (.downloadError ("Echec du telechargement de l extension: " ++ e))
  | .ok _crxFilePath =>
      vivaldiInstallRun opts extensionId manifest archiveFiles unzipOk nowMs nowS profiles

/-! ## Firefox installer and CLI layer -/

/-- JS template-literal interpolation of a possibly-undefined string. -/
def jsUndefToString : Option String → String
  | some s => s
  | none => "undefined"

/-- Outcome of `openFirefoxWithConfigUrl`: whether the browser was launched,
    and with which URL. -/
structure FirefoxOpenResult where
  opened : Bool
  url : Option String

/-- `FirefoxExtensionInstaller.openFirefoxWithConfigUrl`: returns immediately
    when no `configParams` object was passed at all; otherwise always builds
    the URL (interpolating `undefined` for missing fields) and launches. -/
def openFirefoxWithConfigUrl (configParams : Option Config) : FirefoxOpenResult :=
  match configParams with
  | none => ⟨false, none⟩
  | some c =>
      ⟨true, some (jsUndefToString c.smartLinkUrl ++ "/#SmartLinkExtensionSecret="
                   ++ jsUndefToString c.secret)⟩

/-- The unconditional call `await this.openFirefoxWithConfigUrl(profile.name,
    this.options.config)` at the end of each profile iteration of
    `FirefoxExtensionInstaller.installXpi`: whether it relaunches. -/
def firefoxProfileRelaunch (opts : InstallerOptions) : Bool :=
  (openFirefoxWithConfigUrl opts.config).opened

/-- `FirefoxExtensionInstaller.installExtension`: the entire body is inside
    `try { ... } catch { log; return false }`, so a rejected download or a
    throwing `installXpi` yields `false` instead of propagating. -/
def firefoxInstallExtension (alreadyInstalled forceReinstall : Bool)
    (download : Except String String) (installXpiResult : Except JsError String) : Bool :=
  if alreadyInstalled && !forceReinstall then
    true
  else
    match download with
    | .error _ => false
    | .ok _xpiFilePath =>
      match installXpiResult with
      | .error _ => false
      | .ok _extensionId => true

/-- `FirefoxExtensionInstaller.installExtensions`: collects the boolean
    results per extension id; never throws. -/
def firefoxInstallExtensions (installOne : String → Bool) (extensionIds : List String) :
    List (String × Bool) :=
  extensionIds.map fun id => (id, installOne id)

/-- The Firefox branch of `installExtensionCommand`: awaits
    `installExtensions`, discards the results object, and resolves. -/
def installExtensionCommandFirefox (installOne : String → Bool) : Except String Unit :=
  let _results := firefoxInstallExtensions installOne ["smartlink-extension"]
  .ok ()

/-- A Chromium-family branch of `installExtensionCommand` (Opera shown; the
    Vivaldi branch is identical): an installer rejection is caught, logged and
    rethrown, so the command's promise rejects with it. -/
def installExtensionCommandChromium (installResult : Except JsError InstallRunOut) :
    Except String Unit :=
  match installResult with
  | .ok _ => .ok ()
  | .error e => .error (jsErrorMessage e)

/-- The CLI `.fail` handler: `process.exit(1)` on a rejected command, normal
    exit 0 otherwise. -/
def cliExitCode : Except String Unit → Nat
  | .ok _ => 0
  | .error _ => 1

/-! ## forceReinstall defaulting (claim C10) -/

/-- `installExtensionCommand`:
    `forceReinstall: argv.forceReinstall !== undefined ? argv.forceReinstall : true`. -/
def commandForceReinstall (argvForceReinstall : Option Bool) : Bool :=
  match argvForceReinstall with
  | some b => b
  | none => true

/-- `Vivaldi` constructor: `forceReinstall: options.forceReinstall ?? false`. -/
def vivaldiCtorForceReinstall (optionsForceReinstall : Option Bool) : Bool :=
  optionsForceReinstall.getD false

/-- `Opera` constructor: `forceReinstall: options.forceReinstall ?? false`. -/
def operaCtorForceReinstall (optionsForceReinstall : Option Bool) : Bool :=
  optionsForceReinstall.getD false

/-- `FirefoxExtensionInstaller` constructor:
    `forceReinstall: options.forceReinstall ?? false`. -/
def firefoxCtorForceReinstall (optionsForceReinstall : Option Bool) : Bool :=
  optionsForceReinstall.getD false

/-! ## Concrete fixtures used by counterexamples and witnesses -/

/-- A manifest whose only relevant field is `version: "1.0.0"`. -/
def manifestV1 : Json := .obj [("version", .str "1.0.0")]

/-- A profile whose `Preferences` file contains exactly `{}`. -/
def emptyPrefsProfile : Profile := ⟨.wellFormed (.obj []), false, false, []⟩

/-- A profile with no `Preferences` file at all. -/
def absentPrefsProfile : Profile := ⟨.absent, false, false, []⟩

/-- A profile whose `Preferences` file exists but holds malformed JSON. -/
def malformedPrefsProfile : Profile := ⟨.malformed, false, false, []⟩

/-- Installer options with every flag off and no configuration record. -/
def defaultOpts : InstallerOptions := ⟨false, false, none⟩

/-- Extracting a value out of a step outcome: the patched preference content
    at a JSON path, `none` when the step threw or left no parsed file. -/
def resultPrefsPath (r : Except JsError StepResult) (path : List String) : Option Json :=
  match r with
  | .ok res =>
    match res.profile.prefFile with
    | .wellFormed j => jsonGetPath j path
    | _ => none
  | .error _ => none

/-- The files of the version directory after a step, provided it exists. -/
def resultVersionDirFiles (r : Except JsError StepResult) : Option (List String) :=
  match r with
  | .ok res => if res.profile.versionDirExists then some res.profile.versionDirFiles else none
  | .error _ => none

/-- Whether an installer run terminated normally and reached the cleanup step. -/
def runCompleted (r : Except JsError InstallRunOut) : Bool :=
  match r with
  | .ok out => out.cleanupDone
  | .error _ => false

/-! ## Claim C10 -/

/-- Claim C10 (confirmed): `installExtensionCommand` invoked with
    `forceReinstall` undefined passes `forceReinstall = true` to the installer
    it constructs, while every installer constructor given options with
    `forceReinstall` undefined defaults it to `false`; composing the command
    default through a constructor yields `true`. -/
theorem C10_forceReinstall_defaults :
    commandForceReinstall none = true ∧
    vivaldiCtorForceReinstall none = false ∧
    operaCtorForceReinstall none = false ∧
    firefoxCtorForceReinstall none = false ∧
    vivaldiCtorForceReinstall (some (commandForceReinstall none)) = true :=
  ⟨rfl, rfl, rfl, rfl, rfl⟩

/-! ## Claim C2 -/

/-- Claim C2, counterexample: with a `Preferences` file holding `{}`, the
    Opera installer run does not terminate normally with a record under
    `extensions.settings`; it throws a `TypeError`, because the synthesized
    record is assigned to `preferences.extensions.opsettings[extensionId]`
    while the guard only ever initializes `preferences.extensions.settings`. -/
theorem C2_counterexample :
    operaInstallExtension defaultOpts "abc" (.ok "abc.crx") manifestV1
        ["manifest.json", "background.js"] true 0 0 [emptyPrefsProfile]
      = .error (.typeError opsettingsUndefinedMsg) := rfl

/-- Claim C2 as amended: on a profile whose `Preferences` is `{}`, installing
    id `"abc"` at manifest version `"1.0.0"` terminates normally for Vivaldi
    with `extensions.settings["abc"].path = "abc/1_0_0_0"` and a version
    directory `Extensions/abc/1_0_0_0` holding the unpacked archive contents,
    and the run reaches cleanup; the Opera installer instead throws a
    `TypeError` on the same input (its record goes to `extensions.opsettings`,
    which its guard never initializes), so it does not write the record. -/
theorem C2_vivaldi_ok_opera_throws : ∀ (nowMs nowS : Int) (archiveFiles : List String),
    resultPrefsPath
        (vivaldiProfileStep defaultOpts "abc" manifestV1 archiveFiles true nowMs nowS
          emptyPrefsProfile)
        ["extensions", "settings", "abc", "path"] = some (.str "abc/1_0_0_0") ∧
    resultVersionDirFiles
        (vivaldiProfileStep defaultOpts "abc" manifestV1 archiveFiles true nowMs nowS
          emptyPrefsProfile) = some archiveFiles ∧
    runCompleted
        (vivaldiInstallRun defaultOpts "abc" manifestV1 archiveFiles true nowMs nowS
          [emptyPrefsProfile]) = true ∧
    operaProfileStep defaultOpts "abc" manifestV1 archiveFiles true nowMs nowS
        emptyPrefsProfile = .error (.typeError opsettingsUndefinedMsg) :=
  fun _ _ _ => ⟨rfl, rfl, rfl, rfl⟩

/-! ## Claim C9 -/

/-- Claim C9 (confirmed): on a profile with no `Preferences` file (and no
    previous install of this version), the Opera installer still creates the
    version directory and extracts the archive into it, leaving extension
    files on disk with no preference entry, while the Vivaldi installer
    leaves such a profile completely untouched. -/
theorem C9_missing_preferences_divergence :
    ∀ (opts : InstallerOptions) (extensionId : String) (manifest : Json) (v : String)
      (archiveFiles : List String) (nowMs nowS : Int) (p : Profile),
    manifest.get "version" = some (.str v) →
    p.prefFile = .absent →
    p.versionDirExists = false →
    operaProfileStep opts extensionId manifest archiveFiles true nowMs nowS p
        = .ok ⟨⟨.absent, true, true, archiveFiles⟩, false⟩ ∧
    vivaldiProfileStep opts extensionId manifest archiveFiles true nowMs nowS p
        = .ok ⟨p, false⟩ := by
  intro opts extensionId manifest v archiveFiles nowMs nowS p hv hpf hvd
  obtain ⟨pf, ed, vd, files⟩ := p
  simp only at hpf hvd
  subst hpf hvd
  constructor
  · simp [operaProfileStep, operaProfileStep.operaProfileInstall,
      manifestVersionFormatted, hv]
  · simp [vivaldiProfileStep]

/-- Witness for C9 at a concrete profile and manifest. -/
theorem C9_missing_preferences_divergence_witness :
    operaProfileStep defaultOpts "abc" manifestV1 ["content.js"] true 0 0 absentPrefsProfile
        = .ok ⟨⟨.absent, true, true, ["content.js"]⟩, false⟩ ∧
    vivaldiProfileStep defaultOpts "abc" manifestV1 ["content.js"] true 0 0 absentPrefsProfile
        = .ok ⟨absentPrefsProfile, false⟩ :=
  C9_missing_preferences_divergence defaultOpts "abc" manifestV1 "1.0.0" ["content.js"] 0 0
    absentPrefsProfile rfl rfl rfl

/-! ## Claim C3 -/

/-- Claim C3, counterexample: a batch of two profiles where only the first
    has a malformed `Preferences` file.  The claim says the first profile is
    skipped with a logged error, the loop continues to the second profile and
    the run reaches the cleanup step; instead the parse exception propagates
    out of the loop, the run terminates with the error (so the second profile
    is never processed and cleanup is never reached), for both Opera and
    Vivaldi. -/
theorem C3_counterexample :
    operaInstallRun defaultOpts "abc" manifestV1 ["content.js"] true 0 0
        [malformedPrefsProfile, absentPrefsProfile] = .error (.parseError prefsParseMsg) ∧
    vivaldiInstallRun defaultOpts "abc" manifestV1 ["content.js"] true 0 0
        [malformedPrefsProfile, absentPrefsProfile] = .error (.parseError prefsParseMsg) :=
  ⟨rfl, rfl⟩

/-- Claim C3 as amended: only the per-profile archive-extraction step has
    local error handling (on unzip failure the synthesized `manifest.json` is
    written and the run continues to cleanup); a profile whose `Preferences`
    file holds malformed JSON is not skipped — the parse exception aborts the
    whole batch, so no later profile is processed and the cleanup step is not
    reached, in both the Opera and the Vivaldi installers. -/
theorem C3_malformed_profile_aborts_batch :
    ∀ (opts : InstallerOptions) (extensionId : String) (manifest : Json) (v : String)
      (archiveFiles : List String) (unzipOk : Bool) (nowMs nowS : Int)
      (p : Profile) (rest : List Profile),
    manifest.get "version" = some (.str v) →
    p.prefFile = .malformed →
    p.versionDirExists = false →
    operaInstallRun opts extensionId manifest archiveFiles unzipOk nowMs nowS (p :: rest)
        = .error (.parseError prefsParseMsg) ∧
    vivaldiInstallRun opts extensionId manifest archiveFiles unzipOk nowMs nowS (p :: rest)
        = .error (.parseError prefsParseMsg) ∧
    (∀ q : Profile, q.prefFile = .absent → q.versionDirExists = false →
      operaProfileStep opts extensionId manifest archiveFiles false nowMs nowS q
          = .ok ⟨⟨.absent, true, true, ["manifest.json"]⟩, false⟩ ∧
      runCompleted
        (operaInstallRun opts extensionId manifest archiveFiles false nowMs nowS [q]) = true) := by
  intro opts extensionId manifest v archiveFiles unzipOk nowMs nowS p rest hv hpf hvd
  obtain ⟨pf, ed, vd, files⟩ := p
  simp only at hpf hvd
  subst hpf hvd
  refine ⟨?_, ?_, ?_⟩
  · simp [operaInstallRun, operaProfilesLoop, operaProfileStep,
      operaProfileStep.operaProfileInstall, manifestVersionFormatted, hv]
  · simp [vivaldiInstallRun, vivaldiProfilesLoop, vivaldiProfileStep]
  · intro q hq hqvd
    obtain ⟨qpf, qed, qvd, qfiles⟩ := q
    simp only at hq hqvd
    subst hq hqvd
    constructor
    · simp [operaProfileStep, operaProfileStep.operaProfileInstall,
        manifestVersionFormatted, hv]
    · simp [runCompleted, operaInstallRun, operaProfilesLoop, operaProfileStep,
        operaProfileStep.operaProfileInstall, manifestVersionFormatted, hv]

/-- Witness for C3 at concrete profiles. -/
theorem C3_malformed_profile_aborts_batch_witness :
    operaInstallRun defaultOpts "abc" manifestV1 ["content.js"] true 0 0
        [malformedPrefsProfile, absentPrefsProfile] = .error (.parseError prefsParseMsg) ∧
    vivaldiInstallRun defaultOpts "abc" manifestV1 ["content.js"] true 0 0
        [malformedPrefsProfile, absentPrefsProfile] = .error (.parseError prefsParseMsg) ∧
    operaProfileStep defaultOpts "abc" manifestV1 ["content.js"] false 0 0 absentPrefsProfile
        = .ok ⟨⟨.absent, true, true, ["manifest.json"]⟩, false⟩ := by
  obtain ⟨h1, h2, h3⟩ := C3_malformed_profile_aborts_batch defaultOpts "abc" manifestV1
    "1.0.0" ["content.js"] true 0 0 malformedPrefsProfile [absentPrefsProfile] rfl rfl rfl
  exact ⟨h1, h2, (h3 absentPrefsProfile rfl rfl).1⟩

/-! ## Claim C4 -/

/-- Claim C4, counterexample: a Firefox download failure does not propagate
    to the CLI.  `FirefoxExtensionInstaller.installExtension` catches the
    rejection and returns `false`; `installExtensionCommand` awaits
    `installExtensions`, ignores the per-extension results and resolves, so
    the process exits with code 0, not 1. -/
theorem C4_counterexample :
    firefoxInstallExtension false false (.error "HTTP status 404") (.ok "smartlink-extension")
        = false ∧
    cliExitCode (installExtensionCommandFirefox
        (fun _ => firefoxInstallExtension false false (.error "HTTP status 404")
          (.ok "smartlink-extension"))) = 0 :=
  ⟨rfl, rfl⟩

/-- Claim C4 as amended: a download failure aborts the whole installation and
    makes the CLI exit with code 1 for the Chromium-family installers (shown
    for Opera and Vivaldi, whose `installExtension` rethrows the rejection to
    `installExtensionCommand`); the Firefox installer does not propagate it —
    `installExtension` swallows the failure and returns `false`, the command
    resolves anyway, and the process exits 0. -/
theorem C4_download_failure_exit_codes :
    ∀ (e : String) (opts : InstallerOptions) (extensionId : String) (manifest : Json)
      (archiveFiles : List String) (unzipOk : Bool) (nowMs nowS : Int)
      (profiles : List Profile) (force : Bool) (xpi : Except JsError String),
    operaInstallExtension opts extensionId (.error e) manifest archiveFiles unzipOk
        nowMs nowS profiles
      = .error (.downloadError ("Echec du telechargement de l extension: " ++ e)) ∧
    cliExitCode (installExtensionCommandChromium
        (operaInstallExtension opts extensionId (.error e) manifest archiveFiles unzipOk
          nowMs nowS profiles)) = 1 ∧
    vivaldiInstallExtension opts extensionId (.error e) manifest archiveFiles unzipOk
        nowMs nowS profiles
      = .error (.downloadError ("Echec du telechargement de l extension: " ++ e)) ∧
    cliExitCode (installExtensionCommandChromium
        (vivaldiInstallExtension opts extensionId (.error e) manifest archiveFiles unzipOk
          nowMs nowS profiles)) = 1 ∧
    firefoxInstallExtension false force (.error e) xpi = false ∧
    cliExitCode (installExtensionCommandFirefox
        (fun _ => firefoxInstallExtension false force (.error e) xpi)) = 0 :=
  fun _ _ _ _ _ _ _ _ _ _ _ => ⟨rfl, rfl, rfl, rfl, rfl, rfl⟩

/-! ## Claim C7 -/

/-- The relaunch flag of a step outcome (`false` when the step threw). -/
def resultRelaunched (r : Except JsError StepResult) : Bool :=
  match r with
  | .ok res => res.relaunched
  | .error _ => false

/-- Whether a patch attempt succeeded. -/
def patchSucceeds (r : Except JsError Json) : Bool :=
  match r with
  | .ok _ => true
  | .error _ => false

/-- Claim C7, counterexample: the Firefox relaunch is not gated on both the
    configuration URL and the secret being supplied.  With a config object
    carrying neither field, `installXpi` still relaunches Firefox
    (`openFirefoxWithConfigUrl` only checks that some config object exists). -/
theorem C7_counterexample :
    firefoxProfileRelaunch ⟨false, false, some ⟨none, none⟩⟩ = true ∧
    strTruthy (Config.smartLinkUrl ⟨none, none⟩) = false ∧
    strTruthy (Config.secret ⟨none, none⟩) = false :=
  ⟨rfl, rfl, rfl⟩

/-- Claim C7 as amended: for the Chromium-family installers (Opera, Vivaldi)
    a profile relaunch happens only when both `smartLinkUrl` and `secret` are
    supplied and non-empty, and on a freshly patched profile it happens
    exactly when that guard holds; the Firefox installer instead relaunches
    if and only if any config object at all was supplied, regardless of
    whether `smartLinkUrl` or `secret` are present. -/
theorem C7_relaunch_conditions :
    ∀ (opts : InstallerOptions) (extensionId : String) (manifest : Json)
      (archiveFiles : List String) (unzipOk : Bool) (nowMs nowS : Int) (p : Profile),
    (resultRelaunched
        (operaProfileStep opts extensionId manifest archiveFiles unzipOk nowMs nowS p) = true →
      configBothTruthy opts.config = true) ∧
    (resultRelaunched
        (vivaldiProfileStep opts extensionId manifest archiveFiles unzipOk nowMs nowS p) = true →
      configBothTruthy opts.config = true) ∧
    (∀ (v : String) (preferences : Json),
      manifest.get "version" = some (.str v) →
      p.prefFile = .wellFormed preferences →
      p.versionDirExists = false →
      patchSucceeds (vivaldiPatchPrefs preferences extensionId manifest (versionFormatted v)
        nowMs nowS opts.pinExtension) = true →
      resultRelaunched
          (vivaldiProfileStep opts extensionId manifest archiveFiles unzipOk nowMs nowS p)
        = configBothTruthy opts.config) ∧
    (firefoxProfileRelaunch opts = true ↔ opts.config.isSome = true) := by
  intro opts extensionId manifest archiveFiles unzipOk nowMs nowS p
  obtain ⟨pf, ed, vd, files⟩ := p
  refine ⟨?_, ?_, ?_, ?_⟩
  · intro hr
    cases hm : manifestVersionFormatted manifest with
    | error e => simp [operaProfileStep, hm, resultRelaunched] at hr
    | ok vf =>
      cases vd <;> cases hforce : opts.forceReinstall <;>
        simp only [operaProfileStep, operaProfileStep.operaProfileInstall, hm, hforce,
          resultRelaunched, Bool.and_false, Bool.and_true, Bool.false_and, Bool.true_and,
          Bool.not_false, Bool.not_true, if_true, if_false] at hr
      all_goals
        cases pf with
        | absent => simp_all
        | malformed => simp_all
        | wellFormed preferences =>
          cases hpatch : operaPatchPrefs preferences extensionId manifest vf nowMs nowS
              opts.pinExtension <;> simp_all [resultRelaunched]
  · intro hr
    cases pf with
    | absent => simp [vivaldiProfileStep, resultRelaunched] at hr
    | malformed => simp [vivaldiProfileStep, resultRelaunched] at hr
    | wellFormed preferences =>
      cases hm : manifestVersionFormatted manifest with
      | error e => simp [vivaldiProfileStep, hm, resultRelaunched] at hr
      | ok vf =>
        cases vd <;> cases hforce : opts.forceReinstall <;>
          simp only [vivaldiProfileStep, vivaldiProfileStep.vivaldiProfileInstall, hm, hforce,
            resultRelaunched, Bool.and_false, Bool.and_true, Bool.false_and, Bool.true_and,
            Bool.not_false, Bool.not_true, if_true, if_false] at hr
        all_goals
          cases hpatch : vivaldiPatchPrefs preferences extensionId manifest vf nowMs nowS
              opts.pinExtension <;> simp_all [resultRelaunched]
  · intro v preferences hv hpf hvd hps
    simp only at hpf hvd
    subst hpf hvd
    have hm : manifestVersionFormatted manifest = .ok (versionFormatted v) := by
      simp [manifestVersionFormatted, hv]
    cases hpatch : vivaldiPatchPrefs preferences extensionId manifest (versionFormatted v)
        nowMs nowS opts.pinExtension with
    | error e => simp [patchSucceeds, hpatch] at hps
    | ok preferences1 =>
      simp [vivaldiProfileStep, vivaldiProfileStep.vivaldiProfileInstall, hm, hpatch,
        resultRelaunched]
  · cases hc : opts.config <;>
      simp [firefoxProfileRelaunch, openFirefoxWithConfigUrl, hc]

/-- Witness for C7: a config with both fields supplied makes the freshly
    patched Vivaldi profile relaunch, an Opera step that relaunched implies
    the guard, and a bare config object makes Firefox relaunch. -/
theorem C7_relaunch_conditions_witness :
    configBothTruthy (some ⟨some "https://sl.example", some "s3cret"⟩) = true ∧
    resultRelaunched
        (vivaldiProfileStep ⟨false, false, some ⟨some "https://sl.example", some "s3cret"⟩⟩
          "abc" manifestV1 ["content.js"] true 0 0 emptyPrefsProfile)
      = configBothTruthy (some ⟨some "https://sl.example", some "s3cret"⟩) ∧
    firefoxProfileRelaunch ⟨false, false, some ⟨some "https://sl.example", none⟩⟩ = true := by
  refine ⟨?_, ?_, ?_⟩
  · exact (C7_relaunch_conditions ⟨false, false, some ⟨some "https://sl.example", some "s3cret"⟩⟩
      "abc" manifestV1 ["content.js"] true 0 0
      ⟨.wellFormed (.obj [("extensions", .obj [("opsettings", .obj [])])]), false, false, []⟩).1
      (by rfl)
  · exact (C7_relaunch_conditions ⟨false, false, some ⟨some "https://sl.example", some "s3cret"⟩⟩
      "abc" manifestV1 ["content.js"] true 0 0 emptyPrefsProfile).2.2.1 "1.0.0" (.obj [])
      rfl rfl rfl (by rfl)
  · exact (C7_relaunch_conditions ⟨false, false, some ⟨some "https://sl.example", none⟩⟩
      "abc" manifestV1 ["content.js"] true 0 0 emptyPrefsProfile).2.2.2.mpr (by rfl)

/-! ## Claim C8 -/

/-- Undoing the character substitution of `versionFormatted` on a string that
    contained no underscore of its own. -/
theorem mapDotUnderscoreCancel :
    ∀ (l : List Char), '_' ∉ l →
      (l.map (fun c => if c = '.' then '_' else c)).map
        (fun c => if c = '_' then '.' else c) = l := by
  intro l hl
  induction l with
  | nil => rfl
  | cons c cs ih =>
    have hc : c ≠ '_' := fun h => hl (h ▸ List.mem_cons_self c cs)
    have hcs : '_' ∉ cs := fun h => hl (List.mem_cons_of_mem c h)
    by_cases hdot : c = '.'
    · simp [hdot, ih hcs]
    · simp [hdot, hc, ih hcs]

/-- Dropping the two appended suffix characters recovers the substituted body. -/
theorem dropLastTwoAppend (l : List Char) (a b : Char) :
    (l ++ [a, b]).dropLast.dropLast = l := by
  have h1 : l ++ [a, b] = (l ++ [a]) ++ [b] := by simp
  rw [h1, List.dropLast_concat, List.dropLast_concat]

/-- Claim C8 (confirmed): the version-to-directory mapping is total (it is a
    function on all strings), sends `"1.2.3"` to `"1_2_3_0"`, and on version
    strings of dot-separated components (which contain no underscore of their
    own) it is reversible modulo the fixed `_0` suffix — `directoryToVersion`
    recovers the original — and therefore injective on that domain. -/
theorem C8_version_directory_roundtrip :
    versionFormatted "1.2.3" = "1_2_3_0" ∧
    (∀ v : String, '_' ∉ v.data → directoryToVersion (versionFormatted v) = v) ∧
    (∀ v w : String, '_' ∉ v.data → '_' ∉ w.data →
      versionFormatted v = versionFormatted w → v = w) := by
  have hround : ∀ v : String, '_' ∉ v.data → directoryToVersion (versionFormatted v) = v := by
    intro v hv
    unfold directoryToVersion versionFormatted
    obtain ⟨l⟩ := v
    simp only [String.data] at hv ⊢
    rw [dropLastTwoAppend, mapDotUnderscoreCancel l hv]
  refine ⟨by decide, hround, ?_⟩
  intro v w hv hw heq
  have := hround v hv
  rw [heq, hround w hw] at this
  exact this.symm

/-- Witness for C8 at the spec's example version string. -/
theorem C8_version_directory_roundtrip_witness :
    directoryToVersion (versionFormatted "1.2.3") = "1.2.3" :=
  C8_version_directory_roundtrip.2.1 "1.2.3" (by decide)

/-! ## Claim C5 -/

/-- Claim C5 (confirmed): with `forceReinstall = false`, running the
    per-profile installation a second time on the state left by a first
    successful run skips the profile (the version-coded directory exists and
    is treated as already-installed, not as an error) and leaves the profile —
    in particular its preference file — exactly unchanged, with no relaunch;
    this holds for both the Opera and the Vivaldi installers. -/
theorem C5_second_run_skips :
    ∀ (opts : InstallerOptions) (extensionId : String) (manifest : Json) (v : String)
      (archiveFiles : List String) (unzipOk : Bool) (nowMs nowS : Int) (p : Profile),
    manifest.get "version" = some (.str v) →
    opts.forceReinstall = false →
    (∀ res, operaProfileStep opts extensionId manifest archiveFiles unzipOk nowMs nowS p
        = .ok res →
      operaProfileStep opts extensionId manifest archiveFiles unzipOk nowMs nowS res.profile
        = .ok ⟨res.profile, false⟩) ∧
    (∀ res, vivaldiProfileStep opts extensionId manifest archiveFiles unzipOk nowMs nowS p
        = .ok res →
      vivaldiProfileStep opts extensionId manifest archiveFiles unzipOk nowMs nowS res.profile
        = .ok ⟨res.profile, false⟩) := by
  intro opts extensionId manifest v archiveFiles unzipOk nowMs nowS p hv hf
  obtain ⟨pf, ed, vd, files⟩ := p
  have hm : manifestVersionFormatted manifest = .ok (versionFormatted v) := by
    simp [manifestVersionFormatted, hv]
  constructor
  · intro res h
    cases vd with
    | true =>
      simp [operaProfileStep, hm, hf] at h
      subst h
      simp [operaProfileStep, hm, hf]
    | false =>
      cases pf with
      | absent =>
        simp [operaProfileStep, operaProfileStep.operaProfileInstall, hm, hf] at h
        subst h
        simp [operaProfileStep, hm, hf]
      | malformed =>
        simp [operaProfileStep, operaProfileStep.operaProfileInstall, hm, hf] at h
      | wellFormed preferences =>
        cases hpatch : operaPatchPrefs preferences extensionId manifest (versionFormatted v)
            nowMs nowS opts.pinExtension with
        | error e =>
          simp [operaProfileStep, operaProfileStep.operaProfileInstall, hm, hf, hpatch] at h
        | ok preferences1 =>
          simp [operaProfileStep, operaProfileStep.operaProfileInstall, hm, hf, hpatch] at h
          subst h
          simp [operaProfileStep, hm, hf]
  · intro res h
    cases pf with
    | absent =>
      simp [vivaldiProfileStep] at h
      subst h
      simp [vivaldiProfileStep]
    | malformed =>
      simp [vivaldiProfileStep] at h
    | wellFormed preferences =>
      cases vd with
      | true =>
        simp [vivaldiProfileStep, hm, hf] at h
        subst h
        simp [vivaldiProfileStep, hm, hf]
      | false =>
        cases hpatch : vivaldiPatchPrefs preferences extensionId manifest (versionFormatted v)
            nowMs nowS opts.pinExtension with
        | error e =>
          simp [vivaldiProfileStep, vivaldiProfileStep.vivaldiProfileInstall, hm, hf,
            hpatch] at h
        | ok preferences1 =>
          simp [vivaldiProfileStep, vivaldiProfileStep.vivaldiProfileInstall, hm, hf,
            hpatch] at h
          subst h
          simp [vivaldiProfileStep, hm, hf]

/-- Witness for C5 on concrete already-installed profiles. -/
theorem C5_second_run_skips_witness :
    operaProfileStep defaultOpts "abc" manifestV1 ["content.js"] true 0 0
        ⟨.absent, true, true, ["content.js"]⟩
      = .ok ⟨⟨.absent, true, true, ["content.js"]⟩, false⟩ ∧
    vivaldiProfileStep defaultOpts "abc" manifestV1 ["content.js"] true 0 0
        ⟨.wellFormed (.obj []), true, true, []⟩
      = .ok ⟨⟨.wellFormed (.obj []), true, true, []⟩, false⟩ := by
  constructor
  · exact (C5_second_run_skips defaultOpts "abc" manifestV1 "1.0.0" ["content.js"] true 0 0
      ⟨.absent, true, true, ["content.js"]⟩ rfl rfl).1
      ⟨⟨.absent, true, true, ["content.js"]⟩, false⟩ rfl
  · exact (C5_second_run_skips defaultOpts "abc" manifestV1 "1.0.0" ["content.js"] true 0 0
      ⟨.wellFormed (.obj []), true, true, []⟩ rfl rfl).2
      ⟨⟨.wellFormed (.obj []), true, true, []⟩, false⟩ rfl

/-! ## Claim C1 -/

/-- If the first-occurrence search succeeds, the hit is a signature and every
    earlier index is not. -/
theorem firstSigAux_some_spec (data : List Nat) :
    ∀ fuel i k, firstSigAux data fuel i = some k →
      i ≤ k ∧ sigAt data k = true ∧ ∀ j, i ≤ j → j < k → sigAt data j = false := by
  intro fuel
  induction fuel with
  | zero => intro i k h; simp [firstSigAux] at h
  | succ n ih =>
    intro i k h
    by_cases hs : sigAt data i = true
    · simp [firstSigAux, hs] at h
      subst h
      exact ⟨le_refl i, hs, fun j hij hji => absurd (lt_of_le_of_lt hij hji) (lt_irrefl i)⟩
    · simp [firstSigAux, hs] at h
      obtain ⟨h1, h2, h3⟩ := ih (i + 1) k h
      refine ⟨by omega, h2, ?_⟩
      intro j hij hjk
      by_cases hji : j = i
      · subst hji
        simpa using hs
      · exact h3 j (by omega) hjk

/-- If the first-occurrence search fails, no index within the fuel range is a
    signature. -/
theorem firstSigAux_none_spec (data : List Nat) :
    ∀ fuel i, firstSigAux data fuel i = none →
      ∀ j, i ≤ j → j < i + fuel → sigAt data j = false := by
  intro fuel
  induction fuel with
  | zero => intro i _ j hij hj; omega
  | succ n ih =>
    intro i h j hij hj
    by_cases hs : sigAt data i = true
    · simp [firstSigAux, hs] at h
    · simp [firstSigAux, hs] at h
      by_cases hji : j = i
      · subst hji
        simpa using hs
      · exact ih (i + 1) h j (by omega) (by omega)

/-- The source's scan loop stops at the first signature offset it can see,
    provided that offset lies strictly inside the loop bound `i < length - 4`. -/
theorem scanLoop_eq_of_first (data : List Nat) :
    ∀ fuel i k, i ≤ k → k + 4 < data.length → sigAt data k = true →
      (∀ j, i ≤ j → j < k → sigAt data j = false) → k < i + fuel →
      scanLoop data fuel i = k := by
  intro fuel
  induction fuel with
  | zero => intro i k _ _ _ _ h5; omega
  | succ n ih =>
    intro i k h1 h2 h3 h4 h5
    have hib : i + 4 < data.length := by omega
    by_cases hik : i = k
    · subst hik
      simp [scanLoop, hib, h3]
    · have hsi : sigAt data i = false := h4 i (le_refl i) (by omega)
      simp only [scanLoop, hib, if_true, hsi, Bool.false_eq_true, if_false]
      exact ih (i + 1) k (by omega) h2 h3 (fun j hj hjk => h4 j (by omega) hjk) (by omega)

/-- When no index inside the loop bound carries a signature, the loop leaves
    `zipStartOffset` at `0`. -/
theorem scanLoop_eq_zero (data : List Nat) :
    ∀ fuel i, (∀ j, i ≤ j → j + 4 < data.length → sigAt data j = false) →
      scanLoop data fuel i = 0 := by
  intro fuel
  induction fuel with
  | zero => intro i _; rfl
  | succ n ih =>
    intro i h
    by_cases hib : i + 4 < data.length
    · have hsi : sigAt data i = false := h i (le_refl i) hib
      simp only [scanLoop, hib, if_true, hsi, Bool.false_eq_true, if_false]
      exact ih (i + 1) fun j hj hjb => h j (by omega) hjb
    · simp [scanLoop, hib]

/-- A signature at offset 0 also leaves the loop result at 0 (it assigns 0 or
    never enters the loop), indistinguishable from the not-found case. -/
theorem scanLoop_zero_of_sig_at_zero (data : List Nat) (fuel : Nat)
    (h : sigAt data 0 = true) : scanLoop data fuel 0 = 0 := by
  cases fuel with
  | zero => rfl
  | succ n =>
    by_cases hb : 0 + 4 < data.length
    · simp [scanLoop, hb, h]
    · simp [scanLoop, hb]

/-- A CRX buffer whose ZIP signature sits at offset 0 (as in a bare ZIP/XPI
    payload with no CRX header). -/
def crxSigAtZero : List Nat := [0x50, 0x4b, 0x03, 0x04, 0, 0, 0, 0, 0]

/-- A buffer containing no ZIP signature at all. -/
def crxNoSig : List Nat := [1, 1, 1, 1, 1, 1]

/-- A CRX buffer whose first (and only) signature sits at offset 1. -/
def crxSigAtOne : List Nat := [9, 0x50, 0x4b, 0x03, 0x04, 7, 7, 7, 7, 7]

/-- Claim C1, counterexample: a buffer whose first signature occurrence is at
    offset 0 makes the manifest path raise the invalid-archive error instead
    of reporting payload start 0; and on a buffer with no signature the
    full-install extraction path inside the installers raises nothing — it
    silently computes offset 0 and extracts from there (its result is a bare
    offset; no error value exists on that path). -/
theorem C1_counterexample :
    firstSigOffset crxSigAtZero = some 0 ∧
    extractManifestZipStart crxSigAtZero = .error crxInvalidMsg ∧
    firstSigOffset crxNoSig = none ∧
    installZipStart crxNoSig = 0 :=
  ⟨rfl, rfl, rfl, rfl⟩

/-- Claim C1 as amended: when the first signature occurrence is at an offset
    `k` with `1 ≤ k` and `k + 4 < length`, both the manifest path and the
    full-install path report payload start `k`.  A signature whose first
    occurrence is at offset 0 is indistinguishable from no signature: in both
    situations the manifest path raises the invalid-archive error (which
    `extractManifestFromCrx` then converts into the fallback manifest), while
    the full-install path inside Opera/Vivaldi raises nothing and silently
    uses offset 0. -/
theorem C1_scan_and_errors (data : List Nat) (k : Nat) :
    (firstSigOffset data = some k → 1 ≤ k → k + 4 < data.length →
      extractManifestZipStart data = .ok k ∧ installZipStart data = k) ∧
    (firstSigOffset data = some 0 →
      extractManifestZipStart data = .error crxInvalidMsg ∧ installZipStart data = 0) ∧
    (firstSigOffset data = none →
      extractManifestZipStart data = .error crxInvalidMsg ∧ installZipStart data = 0) := by
  refine ⟨?_, ?_, ?_⟩
  · intro h hk hkb
    have h' : firstSigAux data data.length 0 = some k := h
    obtain ⟨-, hsig, hfirst⟩ := firstSigAux_some_spec data data.length 0 k h'
    have hscan : scanOffset data = k :=
      scanLoop_eq_of_first data data.length 0 k (Nat.zero_le k) hkb hsig
        (fun j hj hjk => hfirst j hj hjk) (by omega)
    constructor
    · simp only [extractManifestZipStart, hscan]
      rw [if_neg (by omega)]
    · simpa [installZipStart] using hscan
  · intro h
    have h' : firstSigAux data data.length 0 = some 0 := h
    obtain ⟨-, hsig, -⟩ := firstSigAux_some_spec data data.length 0 0 h'
    have hscan : scanOffset data = 0 := scanLoop_zero_of_sig_at_zero data data.length hsig
    exact ⟨by simp [extractManifestZipStart, hscan], by simp [installZipStart, hscan]⟩
  · intro h
    have h' : firstSigAux data data.length 0 = none := h
    have hall := firstSigAux_none_spec data data.length 0 h'
    have hscan : scanOffset data = 0 :=
      scanLoop_eq_zero data data.length 0 fun j hj hjb => hall j hj (by omega)
    exact ⟨by simp [extractManifestZipStart, hscan], by simp [installZipStart, hscan]⟩

/-- Witness for C1 on a buffer whose first signature is at offset 1. -/
theorem C1_scan_and_errors_witness :
    extractManifestZipStart crxSigAtOne = .ok 1 ∧ installZipStart crxSigAtOne = 1 :=
  (C1_scan_and_errors crxSigAtOne 1).1 rfl (by decide) (by decide)

/-! ## Claim C6: frame lemmas for the preference patch -/

/-- Writing a key makes it readable back. -/
theorem getField_setField_self : ∀ (fs : List (String × Json)) (k : String) (v : Json),
    getField (setField fs k v) k = some v := by
  intro fs k v
  induction fs with
  | nil => simp [setField, getField]
  | cons hd tl ih =>
    obtain ⟨k0, v0⟩ := hd
    by_cases h : k0 = k
    · simp [setField, getField, h]
    · simp [setField, getField, h, ih]

/-- Writing one key leaves every other key unchanged. -/
theorem getField_setField_ne : ∀ (fs : List (String × Json)) (k k' : String) (v : Json),
    k' ≠ k → getField (setField fs k v) k' = getField fs k' := by
  intro fs k k' v hne
  induction fs with
  | nil => simp [setField, getField, Ne.symm hne]
  | cons hd tl ih =>
    obtain ⟨k0, v0⟩ := hd
    by_cases h : k0 = k
    · subst h
      simp [setField, getField, Ne.symm hne]
    · simp [setField, getField, h, ih]

/-- Reading key `k` inside an optional object value (`none` when the value is
    missing or not an object). -/
def subLookup (o : Option Json) (k : String) : Option Json :=
  match o with
  | some (.obj sf) => getField sf k
  | _ => none

/-- A two-step JSON path into an object is a `subLookup`. -/
theorem jsonGetPath_obj_pair (fs : List (String × Json)) (a b : String) :
    jsonGetPath (.obj fs) [a, b] = subLookup (getField fs a) b := by
  cases hg : getField fs a with
  | none => simp [jsonGetPath, Json.get, hg, subLookup]
  | some v =>
    cases v with
    | obj sf =>
      cases hgb : getField sf b <;>
        simp [jsonGetPath, Json.get, hg, hgb, subLookup]
    | null => simp [jsonGetPath, Json.get, hg, subLookup]
    | bool b0 => simp [jsonGetPath, Json.get, hg, subLookup]
    | num n0 => simp [jsonGetPath, Json.get, hg, subLookup]
    | str s0 => simp [jsonGetPath, Json.get, hg, subLookup]
    | arr es => simp [jsonGetPath, Json.get, hg, subLookup]

/-- A falsy JSON value is not an object, so every property read on it misses. -/
theorem get_eq_none_of_falsy (v : Json) (h : jsTruthyVal v = false) (key : String) :
    v.get key = none := by
  cases v <;> simp_all [jsTruthyVal, Json.get]

/-- Reading a key other than the guarded one through the guard-initialization
    `if (!o.gkey) o.gkey = init` is reading the original. -/
theorem getField_guardInit (c : Bool) (ef : List (String × Json)) (gkey key : String)
    (init : Json) (h : key ≠ gkey) :
    getField (if c then ef else setField ef gkey init) key = getField ef key := by
  cases c with
  | true => rfl
  | false => simp [getField_setField_ne ef gkey key init h]

/-- The settings stage touches no key besides `settings`. -/
theorem patchSettingsStage_getField_ne {ef ef2 : List (String × Json)} {extensionId : String}
    {entry : Json} (h : patchSettingsStage ef extensionId entry = .ok ef2) :
    ∀ key, key ≠ "settings" → getField ef2 key = getField ef key := by
  intro key hk
  unfold patchSettingsStage at h
  by_cases ht : jsTruthy (getField ef "settings") = true
  · rw [if_pos ht] at h
    cases hg : getField ef "settings" with
    | none => simp [hg] at h
    | some v =>
      cases v <;> simp [hg] at h
      subst h
      exact getField_setField_ne ef "settings" key _ hk
  · rw [if_neg ht] at h
    simp only [getField_setField_self] at h
    simp at h
    subst h
    rw [getField_setField_ne _ "settings" key _ hk,
      getField_setField_ne ef "settings" key _ hk]

/-- The settings stage changes no settings entry other than the extension's. -/
theorem patchSettingsStage_subLookup {ef ef2 : List (String × Json)} {extensionId : String}
    {entry : Json} (h : patchSettingsStage ef extensionId entry = .ok ef2) :
    ∀ k, k ≠ extensionId →
      subLookup (getField ef2 "settings") k = subLookup (getField ef "settings") k := by
  intro k hk
  unfold patchSettingsStage at h
  by_cases ht : jsTruthy (getField ef "settings") = true
  · rw [if_pos ht] at h
    cases hg : getField ef "settings" with
    | none => simp [hg] at h
    | some v =>
      cases v <;> simp [hg] at h
      subst h
      rw [getField_setField_self]
      simp [subLookup, hg]
      exact getField_setField_ne _ extensionId k entry hk
  · rw [if_neg ht] at h
    simp only [getField_setField_self] at h
    simp at h
    subst h
    rw [getField_setField_self]
    cases hg : getField ef "settings" with
    | none => simp [subLookup, setField, getField, Ne.symm hk]
    | some v =>
      rw [hg] at ht
      cases v <;> simp_all [jsTruthy, jsTruthyVal, subLookup, setField, getField, Ne.symm hk]

/-- The external-extensions stage touches no key besides `external_extensions`. -/
theorem patchExternalExtensionsStage_getField_ne {ef ef2 : List (String × Json)}
    {extensionId : String} {nowS : Int}
    (h : patchExternalExtensionsStage ef extensionId nowS = .ok ef2) :
    ∀ key, key ≠ "external_extensions" → getField ef2 key = getField ef key := by
  intro key hk
  unfold patchExternalExtensionsStage at h
  by_cases ht : jsTruthy (getField ef "external_extensions") = true
  · rw [if_pos ht] at h
    cases hg : getField ef "external_extensions" with
    | none => simp [hg] at h
    | some v =>
      cases v <;> simp [hg] at h
      subst h
      exact getField_setField_ne ef "external_extensions" key _ hk
  · rw [if_neg ht] at h
    simp only [getField_setField_self] at h
    simp at h
    subst h
    rw [getField_setField_ne _ "external_extensions" key _ hk,
      getField_setField_ne ef "external_extensions" key _ hk]

/-- The known-enabled stage touches no key besides `known_enabled`. -/
theorem patchKnownEnabledStage_getField_ne {ef ef2 : List (String × Json)}
    {extensionId : String} (h : patchKnownEnabledStage ef extensionId = .ok ef2) :
    ∀ key, key ≠ "known_enabled" → getField ef2 key = getField ef key := by
  intro key hk
  unfold patchKnownEnabledStage at h
  by_cases ht : jsTruthy (getField ef "known_enabled") = true
  · rw [if_pos ht] at h
    cases hg : getField ef "known_enabled" with
    | none => simp [hg] at h
    | some v =>
      cases v <;> simp [hg] at h
      subst h
      exact getField_setField_ne ef "known_enabled" key _ hk
  · rw [if_neg ht] at h
    simp only [getField_setField_self] at h
    simp at h
    subst h
    rw [getField_setField_ne _ "known_enabled" key _ hk,
      getField_setField_ne ef "known_enabled" key _ hk]

/-- The known-enabled stage keeps every element the array already had. -/
theorem patchKnownEnabledStage_preserve {ef ef2 : List (String × Json)}
    {extensionId : String} (h : patchKnownEnabledStage ef extensionId = .ok ef2) :
    ∀ xs, getField ef "known_enabled" = some (.arr xs) →
      ∃ ys, getField ef2 "known_enabled" = some (.arr ys) ∧ ∀ x ∈ xs, x ∈ ys := by
  intro xs hxs
  unfold patchKnownEnabledStage at h
  have ht : jsTruthy (getField ef "known_enabled") = true := by
    simp [hxs, jsTruthy, jsTruthyVal]
  rw [if_pos ht] at h
  simp only [hxs] at h
  simp at h
  subst h
  by_cases hinc : jsIncludesStr xs extensionId = true
  · refine ⟨xs, ?_, fun x hx => hx⟩
    rw [getField_setField_self]
    simp [hinc]
  · refine ⟨xs ++ [.str extensionId], ?_, fun x hx => List.mem_append_left _ hx⟩
    rw [getField_setField_self]
    simp [hinc]

/-- The pinned-extensions stage touches no key besides `pinned_extensions`. -/
theorem patchPinnedStage_getField_ne {ef ef2 : List (String × Json)}
    {extensionId : String} (h : patchPinnedStage ef extensionId = .ok ef2) :
    ∀ key, key ≠ "pinned_extensions" → getField ef2 key = getField ef key := by
  intro key hk
  unfold patchPinnedStage at h
  by_cases ht : jsTruthy (getField ef "pinned_extensions") = true
  · rw [if_pos ht] at h
    cases hg : getField ef "pinned_extensions" with
    | none => simp [hg] at h
    | some v =>
      cases v <;> simp [hg] at h
      subst h
      exact getField_setField_ne ef "pinned_extensions" key _ hk
  · rw [if_neg ht] at h
    simp only [getField_setField_self] at h
    simp at h
    subst h
    rw [getField_setField_ne _ "pinned_extensions" key _ hk,
      getField_setField_ne ef "pinned_extensions" key _ hk]

/-- The Opera opsettings stage can only succeed when `opsettings` was already
    a (truthy) object, in which case the mismatched guard did not fire and the
    stage touches no key besides `opsettings`. -/
theorem operaPatchOpsettingsStage_getField_ne {ef ef2 : List (String × Json)}
    {extensionId : String} {entry : Json}
    (h : operaPatchOpsettingsStage ef extensionId entry = .ok ef2) :
    ∀ key, key ≠ "opsettings" → getField ef2 key = getField ef key := by
  intro key hk
  unfold operaPatchOpsettingsStage at h
  by_cases ht : jsTruthy (getField ef "opsettings") = true
  · rw [if_pos ht] at h
    cases hg : getField ef "opsettings" with
    | none => simp [hg] at h
    | some v =>
      cases v <;> simp [hg] at h
      subst h
      exact getField_setField_ne ef "opsettings" key _ hk
  · rw [if_neg ht] at h
    simp only [getField_setField_ne ef "settings" "opsettings" (Json.obj []) (by decide)] at h
    cases hg : getField ef "opsettings" with
    | none => simp [hg] at h
    | some v =>
      rw [hg] at ht
      cases v <;> simp_all [jsTruthy, jsTruthyVal]

/-- The Opera opsettings stage changes no opsettings entry other than the
    extension's. -/
theorem operaPatchOpsettingsStage_subLookup {ef ef2 : List (String × Json)}
    {extensionId : String} {entry : Json}
    (h : operaPatchOpsettingsStage ef extensionId entry = .ok ef2) :
    ∀ k, k ≠ extensionId →
      subLookup (getField ef2 "opsettings") k = subLookup (getField ef "opsettings") k := by
  intro k hk
  unfold operaPatchOpsettingsStage at h
  by_cases ht : jsTruthy (getField ef "opsettings") = true
  · rw [if_pos ht] at h
    cases hg : getField ef "opsettings" with
    | none => simp [hg] at h
    | some v =>
      cases v <;> simp [hg] at h
      subst h
      rw [getField_setField_self]
      simp [subLookup, hg]
      exact getField_setField_ne _ extensionId k entry hk
  · rw [if_neg ht] at h
    simp only [getField_setField_ne ef "settings" "opsettings" (Json.obj []) (by decide)] at h
    cases hg : getField ef "opsettings" with
    | none => simp [hg] at h
    | some v =>
      rw [hg] at ht
      cases v <;> simp_all [jsTruthy, jsTruthyVal]

/-- Facts about a successful Vivaldi extensions-object patch: entries of
    `settings` other than the extension's survive, and every element the
    `known_enabled` array already had survives. -/
theorem vivaldiExtPatch_facts {extFields extFields5 : List (String × Json)}
    {extensionId : String} {manifest : Json} {vf : String} {nowMs nowS : Int} {pin : Bool}
    (h : vivaldiExtPatch extFields extensionId manifest vf nowMs nowS pin = .ok extFields5) :
    (∀ k, k ≠ extensionId →
      subLookup (getField extFields5 "settings") k
        = subLookup (getField extFields "settings") k) ∧
    (∀ xs, getField extFields "known_enabled" = some (.arr xs) →
      ∃ ys, getField extFields5 "known_enabled" = some (.arr ys) ∧ ∀ x ∈ xs, x ∈ ys) := by
  unfold vivaldiExtPatch at h
  cases h2 : patchSettingsStage extFields extensionId
      (extensionSettingsEntry manifest extensionId vf nowMs) with
  | error e => simp [h2] at h
  | ok ef2 =>
    simp only [h2] at h
    cases h3 : patchExternalExtensionsStage ef2 extensionId nowS with
    | error e => simp [h3] at h
    | ok ef3 =>
      simp only [h3] at h
      cases h4 : patchKnownEnabledStage ef3 extensionId with
      | error e => simp [h4] at h
      | ok ef4 =>
        simp only [h4] at h
        have h54 : ∀ key, key ≠ "pinned_extensions" →
            getField extFields5 key = getField ef4 key := by
          cases hpin : pin
          · rw [hpin] at h
            simp at h
            subst h
            intro key _
            rfl
          · rw [hpin] at h
            simp only [if_true] at h
            exact patchPinnedStage_getField_ne h
        constructor
        · intro k hk
          rw [h54 "settings" (by decide),
            patchKnownEnabledStage_getField_ne h4 "settings" (by decide),
            patchExternalExtensionsStage_getField_ne h3 "settings" (by decide)]
          exact patchSettingsStage_subLookup h2 k hk
        · intro xs hxs
          have hx3 : getField ef3 "known_enabled" = some (.arr xs) := by
            rw [patchExternalExtensionsStage_getField_ne h3 "known_enabled" (by decide),
              patchSettingsStage_getField_ne h2 "known_enabled" (by decide)]
            exact hxs
          obtain ⟨ys, hy4, hsub⟩ := patchKnownEnabledStage_preserve h4 xs hx3
          refine ⟨ys, ?_, hsub⟩
          rw [h54 "known_enabled" (by decide)]
          exact hy4

/-- Facts about a successful Opera extensions-object patch: entries of
    `opsettings` other than the extension's survive. -/
theorem operaExtPatch_facts {extFields extFields5 : List (String × Json)}
    {extensionId : String} {manifest : Json} {vf : String} {nowMs nowS : Int} {pin : Bool}
    (h : operaExtPatch extFields extensionId manifest vf nowMs nowS pin = .ok extFields5) :
    ∀ k, k ≠ extensionId →
      subLookup (getField extFields5 "opsettings") k
        = subLookup (getField extFields "opsettings") k := by
  unfold operaExtPatch at h
  cases h2 : operaPatchOpsettingsStage extFields extensionId
      (extensionSettingsEntry manifest extensionId vf nowMs) with
  | error e => simp [h2] at h
  | ok ef2 =>
    simp only [h2] at h
    cases h3 : patchExternalExtensionsStage ef2 extensionId nowS with
    | error e => simp [h3] at h
    | ok ef3 =>
      simp only [h3] at h
      cases h4 : patchKnownEnabledStage ef3 extensionId with
      | error e => simp [h4] at h
      | ok ef4 =>
        simp only [h4] at h
        have h54 : ∀ key, key ≠ "pinned_extensions" →
            getField extFields5 key = getField ef4 key := by
          cases hpin : pin
          · rw [hpin] at h
            simp at h
            subst h
            intro key _
            rfl
          · rw [hpin] at h
            simp only [if_true] at h
            exact patchPinnedStage_getField_ne h
        intro k hk
        rw [h54 "opsettings" (by decide),
          patchKnownEnabledStage_getField_ne h4 "opsettings" (by decide),
          patchExternalExtensionsStage_getField_ne h3 "opsettings" (by decide)]
        exact operaPatchOpsettingsStage_subLookup h2 k hk

/-- Decomposition of a successful Vivaldi preference patch on an object file:
    the result rewrites only the `extensions` slot of the (guard-initialized)
    top level, and the facts needed for the frame property. -/
theorem vivaldiPatch_ok_analysis {prefFields : List (String × Json)} {extensionId : String}
    {manifest : Json} {vf : String} {nowMs nowS : Int} {pin : Bool} {out : Json}
    (h : vivaldiPatchPrefs (.obj prefFields) extensionId manifest vf nowMs nowS pin
        = .ok out) :
    ∃ (prefFields1 extFields extFields5 : List (String × Json)),
      out = .obj (setField prefFields1 "extensions" (.obj extFields5)) ∧
      getField prefFields1 "extensions" = some (.obj extFields) ∧
      (∀ key, key ≠ "extensions" → getField prefFields1 key = getField prefFields key) ∧
      (jsTruthy (getField prefFields "extensions") = true → prefFields1 = prefFields) ∧
      (jsTruthy (getField prefFields "extensions") = false → extFields = []) ∧
      (∀ k, k ≠ extensionId →
        subLookup (getField extFields5 "settings") k
          = subLookup (getField extFields "settings") k) ∧
      (∀ xs, getField extFields "known_enabled" = some (.arr xs) →
        ∃ ys, getField extFields5 "known_enabled" = some (.arr ys) ∧ ∀ x ∈ xs, x ∈ ys) := by
  unfold vivaldiPatchPrefs at h
  dsimp only at h
  by_cases ht : jsTruthy (getField prefFields "extensions") = true
  · rw [if_pos ht] at h
    cases hg : getField prefFields "extensions" with
    | none => rw [hg] at ht; simp [jsTruthy] at ht
    | some v =>
      cases v with
      | obj ef0 =>
        simp only [hg] at h
        cases hpe : vivaldiExtPatch ef0 extensionId manifest vf nowMs nowS pin with
        | error e => simp [hpe] at h
        | ok ef5 =>
          simp only [hpe] at h
          simp at h
          subst h
          obtain ⟨hsub, hke⟩ := vivaldiExtPatch_facts hpe
          exact ⟨prefFields, ef0, ef5, rfl, hg, fun _ _ => rfl, fun _ => rfl,
            fun hf => by simp [jsTruthy, jsTruthyVal] at hf, hsub, hke⟩
      | null => simp [hg] at h
      | bool b => simp [hg] at h
      | num n => simp [hg] at h
      | str s => simp [hg] at h
      | arr es => simp [hg] at h
  · rw [if_neg ht] at h
    simp only [getField_setField_self] at h
    cases hpe : vivaldiExtPatch [] extensionId manifest vf nowMs nowS pin with
    | error e => simp [hpe] at h
    | ok ef5 =>
      simp only [hpe] at h
      simp at h
      subst h
      obtain ⟨hsub, hke⟩ := vivaldiExtPatch_facts hpe
      refine ⟨setField prefFields "extensions" (.obj []), [], ef5, rfl,
        getField_setField_self prefFields "extensions" (.obj []),
        fun key hk => getField_setField_ne prefFields "extensions" key (.obj []) hk,
        fun htrue => absurd htrue ht, fun _ => rfl, hsub, hke⟩

/-- Decomposition of a successful Opera preference patch on an object file. -/
theorem operaPatch_ok_analysis {prefFields : List (String × Json)} {extensionId : String}
    {manifest : Json} {vf : String} {nowMs nowS : Int} {pin : Bool} {out : Json}
    (h : operaPatchPrefs (.obj prefFields) extensionId manifest vf nowMs nowS pin
        = .ok out) :
    ∃ (prefFields1 extFields extFields5 : List (String × Json)),
      out = .obj (setField prefFields1 "extensions" (.obj extFields5)) ∧
      getField prefFields1 "extensions" = some (.obj extFields) ∧
      (∀ key, key ≠ "extensions" → getField prefFields1 key = getField prefFields key) ∧
      (jsTruthy (getField prefFields "extensions") = true → prefFields1 = prefFields) ∧
      (jsTruthy (getField prefFields "extensions") = false → extFields = []) ∧
      (∀ k, k ≠ extensionId →
        subLookup (getField extFields5 "opsettings") k
          = subLookup (getField extFields "opsettings") k) := by
  unfold operaPatchPrefs at h
  dsimp only at h
  by_cases ht : jsTruthy (getField prefFields "extensions") = true
  · rw [if_pos ht] at h
    cases hg : getField prefFields "extensions" with
    | none => rw [hg] at ht; simp [jsTruthy] at ht
    | some v =>
      cases v with
      | obj ef0 =>
        simp only [hg] at h
        cases hpe : operaExtPatch ef0 extensionId manifest vf nowMs nowS pin with
        | error e => simp [hpe] at h
        | ok ef5 =>
          simp only [hpe] at h
          simp at h
          subst h
          exact ⟨prefFields, ef0, ef5, rfl, hg, fun _ _ => rfl, fun _ => rfl,
            fun hf => by simp [jsTruthy, jsTruthyVal] at hf, operaExtPatch_facts hpe⟩
      | null => simp [hg] at h
      | bool b => simp [hg] at h
      | num n => simp [hg] at h
      | str s => simp [hg] at h
      | arr es => simp [hg] at h
  · rw [if_neg ht] at h
    simp only [getField_setField_self] at h
    cases hpe : operaExtPatch [] extensionId manifest vf nowMs nowS pin with
    | error e => simp [hpe] at h
    | ok ef5 =>
      simp only [hpe] at h
      simp at h
      subst h
      refine ⟨setField prefFields "extensions" (.obj []), [], ef5, rfl,
        getField_setField_self prefFields "extensions" (.obj []),
        fun key hk => getField_setField_ne prefFields "extensions" key (.obj []) hk,
        fun htrue => absurd htrue ht, fun _ => rfl, operaExtPatch_facts hpe⟩

/-- One step of a JSON path through a present property. -/
theorem jsonGetPath_cons_some {j v : Json} {key : String} (rest : List String)
    (h : j.get key = some v) : jsonGetPath j (key :: rest) = jsonGetPath v rest := by
  simp [jsonGetPath, h]

/-- One step of a JSON path through a missing property. -/
theorem jsonGetPath_cons_none {j : Json} {key : String} (rest : List String)
    (h : j.get key = none) : jsonGetPath j (key :: rest) = none := by
  simp [jsonGetPath, h]

/-- Top-level frame for a patched preference object: keys other than
    `extensions` read the same. -/
theorem patchedTopFrame {prefFields pf1 ef5 : List (String × Json)} {out : Json}
    (hout : out = .obj (setField pf1 "extensions" (.obj ef5)))
    (hframe : ∀ key, key ≠ "extensions" → getField pf1 key = getField prefFields key) :
    ∀ key, key ≠ "extensions" → out.get key = Json.get (.obj prefFields) key := by
  intro key hk
  rw [hout]
  show getField (setField pf1 "extensions" (.obj ef5)) key = getField prefFields key
  rw [getField_setField_ne pf1 "extensions" key (.obj ef5) hk, hframe key hk]

/-- Per-extension frame below `extensions.<skey>` for a patched preference
    object: entries with a key other than the extension id read the same. -/
theorem patchedSubFrame {prefFields pf1 ef ef5 : List (String × Json)} {out : Json}
    (skey : String) {extensionId : String}
    (hout : out = .obj (setField pf1 "extensions" (.obj ef5)))
    (hg1 : getField pf1 "extensions" = some (.obj ef))
    (hfact4 : jsTruthy (getField prefFields "extensions") = true → pf1 = prefFields)
    (hfact5 : jsTruthy (getField prefFields "extensions") = false → ef = [])
    (hsub : ∀ k, k ≠ extensionId →
      subLookup (getField ef5 skey) k = subLookup (getField ef skey) k) :
    ∀ k, k ≠ extensionId →
      jsonGetPath out ["extensions", skey, k]
        = jsonGetPath (.obj prefFields) ["extensions", skey, k] := by
  intro k hk
  rw [hout]
  have hstep : Json.get (.obj (setField pf1 "extensions" (.obj ef5))) "extensions"
      = some (.obj ef5) := by
    show getField (setField pf1 "extensions" (.obj ef5)) "extensions" = some (.obj ef5)
    exact getField_setField_self pf1 "extensions" (.obj ef5)
  rw [jsonGetPath_cons_some [skey, k] hstep, jsonGetPath_obj_pair ef5 skey k, hsub k hk]
  by_cases ht : jsTruthy (getField prefFields "extensions") = true
  · have hpf : pf1 = prefFields := hfact4 ht
    rw [hpf] at hg1
    rw [jsonGetPath_cons_some [skey, k] (show Json.get (.obj prefFields) "extensions"
      = some (.obj ef) from hg1), jsonGetPath_obj_pair ef skey k]
  · have hef : ef = [] := hfact5 (by revert ht; cases jsTruthy (getField prefFields "extensions") <;> simp)
    subst hef
    have hnone : subLookup (getField ([] : List (String × Json)) skey) k = none := rfl
    rw [hnone]
    cases hg0 : getField prefFields "extensions" with
    | none =>
      rw [jsonGetPath_cons_none [skey, k] (show Json.get (.obj prefFields) "extensions"
        = none from hg0)]
    | some v =>
      have hvf : jsTruthyVal v = false := by
        rw [hg0] at ht
        revert ht
        cases hjv : jsTruthyVal v <;> simp [jsTruthy, hjv]
      rw [jsonGetPath_cons_some [skey, k] (show Json.get (.obj prefFields) "extensions"
        = some v from hg0),
        jsonGetPath_cons_none [k] (get_eq_none_of_falsy v hvf skey)]

/-- `known_enabled` element preservation for a patched preference object. -/
theorem patchedKnownEnabled {prefFields pf1 ef ef5 : List (String × Json)} {out : Json}
    (hout : out = .obj (setField pf1 "extensions" (.obj ef5)))
    (hg1 : getField pf1 "extensions" = some (.obj ef))
    (hfact4 : jsTruthy (getField prefFields "extensions") = true → pf1 = prefFields)
    (hke : ∀ xs, getField ef "known_enabled" = some (.arr xs) →
      ∃ ys, getField ef5 "known_enabled" = some (.arr ys) ∧ ∀ x ∈ xs, x ∈ ys) :
    ∀ xs, jsonGetPath (.obj prefFields) ["extensions", "known_enabled"] = some (.arr xs) →
      ∃ ys, jsonGetPath out ["extensions", "known_enabled"] = some (.arr ys) ∧
        ∀ x ∈ xs, x ∈ ys := by
  intro xs hxs
  rw [jsonGetPath_obj_pair prefFields "extensions" "known_enabled"] at hxs
  cases hg0 : getField prefFields "extensions" with
  | none => rw [hg0] at hxs; simp [subLookup] at hxs
  | some v =>
    rw [hg0] at hxs
    cases v with
    | obj ef0 =>
      have ht : jsTruthy (getField prefFields "extensions") = true := by
        simp [hg0, jsTruthy, jsTruthyVal]
      have hpf : pf1 = prefFields := hfact4 ht
      rw [hpf] at hg1
      have hef : ef0 = ef := by
        have h01 : some (Json.obj ef0) = some (Json.obj ef) := hg0.symm.trans hg1
        injection h01 with h1
        injection h1 with h2
      have hxsA : getField ef0 "known_enabled" = some (.arr xs) := hxs
      have hxs0 : getField ef "known_enabled" = some (.arr xs) := hef ▸ hxsA
      obtain ⟨ys, hy5, hsub⟩ := hke xs hxs0
      refine ⟨ys, ?_, hsub⟩
      rw [hout, jsonGetPath_obj_pair (setField pf1 "extensions" (.obj ef5)) "extensions"
        "known_enabled", getField_setField_self pf1 "extensions" (.obj ef5)]
      simpa [subLookup] using hy5
    | null => simp [subLookup] at hxs
    | bool b => simp [subLookup] at hxs
    | num n => simp [subLookup] at hxs
    | str s => simp [subLookup] at hxs
    | arr es => simp [subLookup] at hxs

/-- Claim C6 (confirmed): the read-modify-write that a Chromium-family
    installer performs on a profile's `Preferences` file preserves every
    pre-existing top-level key other than `extensions`, preserves every
    per-extension entry not keyed by this extension's id (under
    `extensions.settings` for Vivaldi, `extensions.opsettings` for Opera),
    and keeps every element the `known_enabled` list already had — whether
    the patch succeeds (and writes the new file) or throws (leaving the file
    untouched). -/
theorem C6_patch_frame :
    ∀ (preferences : Json) (extensionId : String) (manifest : Json) (vf : String)
      (nowMs nowS : Int) (pin : Bool),
    (∀ key, key ≠ "extensions" →
      (vivaldiPatchedFile preferences extensionId manifest vf nowMs nowS pin).get key
        = preferences.get key) ∧
    (∀ k, k ≠ extensionId →
      jsonGetPath (vivaldiPatchedFile preferences extensionId manifest vf nowMs nowS pin)
          ["extensions", "settings", k]
        = jsonGetPath preferences ["extensions", "settings", k]) ∧
    (∀ xs, jsonGetPath preferences ["extensions", "known_enabled"] = some (.arr xs) →
      ∃ ys,
        jsonGetPath (vivaldiPatchedFile preferences extensionId manifest vf nowMs nowS pin)
          ["extensions", "known_enabled"] = some (.arr ys) ∧ ∀ x ∈ xs, x ∈ ys) ∧
    (∀ key, key ≠ "extensions" →
      (operaPatchedFile preferences extensionId manifest vf nowMs nowS pin).get key
        = preferences.get key) ∧
    (∀ k, k ≠ extensionId →
      jsonGetPath (operaPatchedFile preferences extensionId manifest vf nowMs nowS pin)
          ["extensions", "opsettings", k]
        = jsonGetPath preferences ["extensions", "opsettings", k]) := by
  intro preferences extensionId manifest vf nowMs nowS pin
  refine ⟨?_, ?_, ?_, ?_, ?_⟩
  · intro key hk
    cases hres : vivaldiPatchPrefs preferences extensionId manifest vf nowMs nowS pin with
    | error e => simp only [vivaldiPatchedFile, hres]
    | ok out =>
      simp only [vivaldiPatchedFile, hres]
      cases preferences with
      | obj prefFields =>
        obtain ⟨pf1, ef, ef5, hout, hg1, hframe, hfact4, hfact5, hsub, hke⟩ :=
          vivaldiPatch_ok_analysis hres
        exact patchedTopFrame hout hframe key hk
      | null => simp [vivaldiPatchPrefs] at hres
      | bool b => simp [vivaldiPatchPrefs] at hres
      | num n => simp [vivaldiPatchPrefs] at hres
      | str s => simp [vivaldiPatchPrefs] at hres
      | arr es => simp [vivaldiPatchPrefs] at hres
  · intro k hk
    cases hres : vivaldiPatchPrefs preferences extensionId manifest vf nowMs nowS pin with
    | error e => simp only [vivaldiPatchedFile, hres]
    | ok out =>
      simp only [vivaldiPatchedFile, hres]
      cases preferences with
      | obj prefFields =>
        obtain ⟨pf1, ef, ef5, hout, hg1, hframe, hfact4, hfact5, hsub, hke⟩ :=
          vivaldiPatch_ok_analysis hres
        exact patchedSubFrame "settings" hout hg1 hfact4 hfact5 hsub k hk
      | null => simp [vivaldiPatchPrefs] at hres
      | bool b => simp [vivaldiPatchPrefs] at hres
      | num n => simp [vivaldiPatchPrefs] at hres
      | str s => simp [vivaldiPatchPrefs] at hres
      | arr es => simp [vivaldiPatchPrefs] at hres
  · intro xs hxs
    cases hres : vivaldiPatchPrefs preferences extensionId manifest vf nowMs nowS pin with
    | error e =>
      simp only [vivaldiPatchedFile, hres]
      exact ⟨xs, hxs, fun x hx => hx⟩
    | ok out =>
      simp only [vivaldiPatchedFile, hres]
      cases preferences with
      | obj prefFields =>
        obtain ⟨pf1, ef, ef5, hout, hg1, hframe, hfact4, hfact5, hsub, hke⟩ :=
          vivaldiPatch_ok_analysis hres
        exact patchedKnownEnabled hout hg1 hfact4 hke xs hxs
      | null => simp [vivaldiPatchPrefs] at hres
      | bool b => simp [vivaldiPatchPrefs] at hres
      | num n => simp [vivaldiPatchPrefs] at hres
      | str s => simp [vivaldiPatchPrefs] at hres
      | arr es => simp [vivaldiPatchPrefs] at hres
  · intro key hk
    cases hres : operaPatchPrefs preferences extensionId manifest vf nowMs nowS pin with
    | error e => simp only [operaPatchedFile, hres]
    | ok out =>
      simp only [operaPatchedFile, hres]
      cases preferences with
      | obj prefFields =>
        obtain ⟨pf1, ef, ef5, hout, hg1, hframe, hfact4, hfact5, hsub⟩ :=
          operaPatch_ok_analysis hres
        exact patchedTopFrame hout hframe key hk
      | null => simp [operaPatchPrefs] at hres
      | bool b => simp [operaPatchPrefs] at hres
      | num n => simp [operaPatchPrefs] at hres
      | str s => simp [operaPatchPrefs] at hres
      | arr es => simp [operaPatchPrefs] at hres
  · intro k hk
    cases hres : operaPatchPrefs preferences extensionId manifest vf nowMs nowS pin with
    | error e => simp only [operaPatchedFile, hres]
    | ok out =>
      simp only [operaPatchedFile, hres]
      cases preferences with
      | obj prefFields =>
        obtain ⟨pf1, ef, ef5, hout, hg1, hframe, hfact4, hfact5, hsub⟩ :=
          operaPatch_ok_analysis hres
        exact patchedSubFrame "opsettings" hout hg1 hfact4 hfact5 hsub k hk
      | null => simp [operaPatchPrefs] at hres
      | bool b => simp [operaPatchPrefs] at hres
      | num n => simp [operaPatchPrefs] at hres
      | str s => simp [operaPatchPrefs] at hres
      | arr es => simp [operaPatchPrefs] at hres

/-- A preference file with unrelated data at every level touched by the
    patch. -/
def framePrefs : Json := .obj [
  ("bookmarks", .str "keep"),
  ("extensions", .obj [
    ("settings", .obj [("other", .str "o")]),
    ("opsettings", .obj [("other2", .str "p")]),
    ("known_enabled", .arr [.str "old"])])]

/-- Witness for C6 on a concrete preference file with unrelated entries. -/
theorem C6_patch_frame_witness :
    (vivaldiPatchedFile framePrefs "abc" manifestV1 "1_0_0_0" 0 0 false).get "bookmarks"
        = framePrefs.get "bookmarks" ∧
    jsonGetPath (vivaldiPatchedFile framePrefs "abc" manifestV1 "1_0_0_0" 0 0 false)
        ["extensions", "settings", "other"]
      = jsonGetPath framePrefs ["extensions", "settings", "other"] ∧
    (∃ ys, jsonGetPath (vivaldiPatchedFile framePrefs "abc" manifestV1 "1_0_0_0" 0 0 false)
        ["extensions", "known_enabled"] = some (.arr ys) ∧
      ∀ x ∈ [Json.str "old"], x ∈ ys) ∧
    (operaPatchedFile framePrefs "abc" manifestV1 "1_0_0_0" 0 0 false).get "bookmarks"
        = framePrefs.get "bookmarks" ∧
    jsonGetPath (operaPatchedFile framePrefs "abc" manifestV1 "1_0_0_0" 0 0 false)
        ["extensions", "opsettings", "other2"]
      = jsonGetPath framePrefs ["extensions", "opsettings", "other2"] := by
  obtain ⟨p1, p2, p3, p4, p5⟩ := C6_patch_frame framePrefs "abc" manifestV1 "1_0_0_0" 0 0 false
  exact ⟨p1 "bookmarks" (by decide), p2 "other" (by decide), p3 [Json.str "old"] (by rfl),
    p4 "bookmarks" (by decide), p5 "other2" (by decide)⟩
